import Mathlib

/-!
sabuksoundmap: the `ImageViewer` class of `js/viewer.js`.

A shallow embedding of the pan/zoom viewport, the drag gesture handling and the
marker/track audio player of `ImageViewer`.

Modelling conventions.

* JavaScript numbers are embedded as rationals (`ℚ`): the arithmetic of the viewer is
  clamping, sums, products and quotients, and is read here in exact arithmetic.  `NaN`
  and the infinities have no counterpart; the convention `x / 0 = 0` only matters at
  `scale = 0` or a zero aspect ratio.
* What the methods read from the page at call time (`getBoundingClientRect`,
  `naturalWidth`/`naturalHeight`, `window.innerWidth`) is passed as an `Env`.
* DOM side effects are recorded in fields of the viewer state (`transform`,
  `draggingClass`, the two track rows, the markers carrying the class `playing`).
* Every `Audio` object ever created lives in the list `audios`; a handle is its index.
* A method that dereferences `this.currentMarker` while it is `null` throws a
  `TypeError`; methods of the audio part return an `Outcome`: the state at the point
  where the method stopped and whether it stopped by throwing.
* The media primitive is the one of the spec, section 6: `new Audio(src)` gives a paused
  element at position 0, `play()` and `pause()` clear and set `paused`, and an element
  that plays to the end of its track stops (`paused` set) and notifies its `ended`
  listener.  Rejected playback starts are not modelled (the source ignores them).
* The notification arrives on a later turn of the event loop (spec, section 5).
  `Reachable` delivers it while the ended handle is still playing or active;
  `ReachableLate` also delivers it for a handle the player has moved on from.
* The markup of the page is not part of the sources: the two track rows it provides are
  a parameter (`Page`), and a marker is taken to contain its image, so that the `alt`
  fallback of `handleMarkerClick` is always defined.
-/

namespace ImageViewer

/-! ## Data model -/

/-- What the viewer reads from the page when a method runs. -/
structure Env where
  /-- Source: `viewer.getBoundingClientRect().left` -/
  left : ℚ
  /-- Source: `viewer.getBoundingClientRect().top` -/
  top : ℚ
  /-- Source: `viewer.getBoundingClientRect().width` -/
  width : ℚ
  /-- Source: `viewer.getBoundingClientRect().height` -/
  height : ℚ
  /-- Source: `image.naturalWidth` -/
  naturalWidth : ℚ
  /-- Source: `image.naturalHeight` -/
  naturalHeight : ℚ
  /-- Source: `window.innerWidth` -/
  innerWidth : ℚ
  deriving DecidableEq

/-- A mouse event (`mousedown`, `mousemove`). -/
structure MouseEvent where
  clientX : ℚ
  clientY : ℚ
  deriving DecidableEq

/-- A wheel event. -/
structure WheelEvent where
  clientX : ℚ
  clientY : ℚ
  deltaY : ℚ
  deriving DecidableEq

/-- One touch point of a touch event. -/
structure Touch where
  clientX : ℚ
  clientY : ℚ
  deriving DecidableEq

/-- A touch event: the list `e.touches`. -/
structure TouchEvent where
  touches : List Touch
  deriving DecidableEq

/-- An `Audio` object: its source, the `paused` flag, the playback position and the
track index captured by the `ended` listener registered on it (if any). -/
structure Audio where
  src : String
  paused : Bool
  currentTime : ℚ
  onended : Option Nat
  deriving DecidableEq

/-- An entry of `this.tracks`. -/
structure Track where
  name : String
  src : String
  deriving DecidableEq

/-- A `.place-marker` element: its identity, its `dataset`, the text of its
`.place-title` child when there is one and the `alt` text of its image. -/
structure Marker where
  id : Nat
  audio : Option String
  audio2 : Option String
  name : Option String
  name2 : Option String
  title : Option String
  alt : String
  deriving DecidableEq

/-- A `.track-row` element: its `style.display`, the text of its `.location-btn`
and the `src`/`alt` of the image of its `.play-btn`. -/
structure TrackRow where
  display : String
  label : String
  iconSrc : String
  iconAlt : String
  deriving DecidableEq

/-- The part of the page markup the constructor picks up: the two track rows and
whether `.controls-right` already carries the class `visible`. -/
structure Page where
  track1Row : TrackRow
  track2Row : TrackRow
  controlsVisible : Bool
  deriving DecidableEq

end ImageViewer

/-- The fields of an `ImageViewer` instance together with the DOM state it owns. -/
structure ImageViewer where
  scale : ℚ
  posX : ℚ
  posY : ℚ
  isDragging : Bool
  hasMoved : Bool
  startX : ℚ
  startY : ℚ
  dragStartX : ℚ
  dragStartY : ℚ
  currentAudio : Option Nat
  currentMarker : Option ImageViewer.Marker
  currentTrackIndex : Nat
  tracks : Option (List ImageViewer.Track)
  controlsVisible : Bool
  track1Row : ImageViewer.TrackRow
  track2Row : ImageViewer.TrackRow
  /-- every `Audio` object created so far, indexed by handle -/
  audios : List ImageViewer.Audio
  /-- ids of the markers whose class list contains `playing` -/
  playingClass : List Nat
  /-- whether the wrapper carries the class `dragging` -/
  draggingClass : Bool
  /-- the last `translate(posX, posY) scale(scale)` written to the wrapper -/
  transform : Option (ℚ × ℚ × ℚ)
  deriving DecidableEq

namespace ImageViewer

/-! ## Viewport model -/

/-- Source: `this.defaultScale = 0.7`. -/
def defaultScale : ℚ := 7 / 10

/-- Source: `this.maxScale = 1.5`. -/
def maxScale : ℚ := 3 / 2

/-- Source: `get minScale() { return this.defaultScale; }`. -/
def minScale : ℚ := defaultScale

/-- Source: `isMobile()`: `window.innerWidth <= 768`. -/
def isMobile (env : Env) : Bool := decide (env.innerWidth ≤ 768)

/-- Source: `aspectRatio = image.naturalHeight / image.naturalWidth`. -/
def aspectRatio (env : Env) : ℚ := env.naturalHeight / env.naturalWidth

/-- Source: `imageDisplayWidth` of `constrainPosition`. -/
def imageDisplayWidth (env : Env) (scale : ℚ) : ℚ :=
  if isMobile env then (env.height / aspectRatio env) * scale else env.width * scale

/-- Source: `imageDisplayHeight` of `constrainPosition`. -/
def imageDisplayHeight (env : Env) (scale : ℚ) : ℚ :=
  if isMobile env then env.height * scale else env.width * aspectRatio env * scale

/-- Source: `constrainPosition()`. -/
def constrainPosition (env : Env) (s : ImageViewer) : ImageViewer :=
  let viewerWidth := env.width
  let viewerHeight := env.height
  let imageDisplayWidth := imageDisplayWidth env s.scale
  let imageDisplayHeight := imageDisplayHeight env s.scale
  let minX := viewerWidth - imageDisplayWidth
  let maxX : ℚ := 0
  let posX :=
    if imageDisplayWidth ≤ viewerWidth then (viewerWidth - imageDisplayWidth) / 2
    else max minX (min maxX s.posX)
  let minY := viewerHeight - imageDisplayHeight
  let maxY : ℚ := 0
  let posY :=
    if imageDisplayHeight ≤ viewerHeight then (viewerHeight - imageDisplayHeight) / 2
    else max minY (min maxY s.posY)
  { s with posX := posX, posY := posY }

/-- Source: `updateTransform()`. -/
def updateTransform (s : ImageViewer) : ImageViewer :=
  { s with transform := some (s.posX, s.posY, s.scale) }

/-- Source: `setupInitialPosition()`; `resizePlaceMarkers` only sizes marker images and
touches no field of the viewer. -/
def setupInitialPosition (env : Env) (s : ImageViewer) : ImageViewer :=
  updateTransform (constrainPosition env { s with scale := defaultScale })

/-- Source: `handleWheel(e)`. -/
def handleWheel (env : Env) (e : WheelEvent) (s : ImageViewer) : ImageViewer :=
  let mouseX := e.clientX - env.left
  let mouseY := e.clientY - env.top
  let imageX := (mouseX - s.posX) / s.scale
  let imageY := (mouseY - s.posY) / s.scale
  let delta : ℚ := if e.deltaY > 0 then -(5 / 100) else 5 / 100
  let newScale := max minScale (min maxScale (s.scale + delta))
  if newScale ≠ s.scale then
    updateTransform (constrainPosition env
      { s with posX := mouseX - imageX * newScale,
               posY := mouseY - imageY * newScale,
               scale := newScale })
  else s

/-- Source: `zoom(delta)`. -/
def zoom (env : Env) (delta : ℚ) (s : ImageViewer) : ImageViewer :=
  let centerX := env.width / 2
  let centerY := env.height / 2
  let imageX := (centerX - s.posX) / s.scale
  let imageY := (centerY - s.posY) / s.scale
  let newScale := max minScale (min maxScale (s.scale + delta))
  if newScale ≠ s.scale then
    updateTransform (constrainPosition env
      { s with posX := centerX - imageX * newScale,
               posY := centerY - imageY * newScale,
               scale := newScale })
  else s

/-- Source: `startDrag(e)`. -/
def startDrag (e : MouseEvent) (s : ImageViewer) : ImageViewer :=
  { s with isDragging := true, hasMoved := false, draggingClass := true,
           startX := e.clientX - s.posX, startY := e.clientY - s.posY,
           dragStartX := e.clientX, dragStartY := e.clientY }

/-- Source: `drag(e)`. -/
def drag (env : Env) (e : MouseEvent) (s : ImageViewer) : ImageViewer :=
  if !s.isDragging then s
  else
    let dx := |e.clientX - s.dragStartX|
    let dy := |e.clientY - s.dragStartY|
    let hasMoved := if dx > 5 ∨ dy > 5 then true else s.hasMoved
    updateTransform (constrainPosition env
      { s with hasMoved := hasMoved,
               posX := e.clientX - s.startX, posY := e.clientY - s.startY })

/-- Source: `endDrag(e)`, up to the timer it arms. -/
def endDrag (s : ImageViewer) : ImageViewer :=
  { s with isDragging := false, draggingClass := false }

/-- The callback `endDrag` hands to `setTimeout(…, 10)`. -/
def endDragTimeout (s : ImageViewer) : ImageViewer :=
  { s with hasMoved := false }

/-- Source: `handleTouchStart(e)`. -/
def handleTouchStart (e : TouchEvent) (s : ImageViewer) : ImageViewer :=
  if e.touches.length = 1 then
    match e.touches with
    | touch :: _ =>
      { s with isDragging := true, hasMoved := false, draggingClass := true,
               startX := touch.clientX - s.posX, startY := touch.clientY - s.posY,
               dragStartX := touch.clientX, dragStartY := touch.clientY }
    | [] => s
  else s

/-- Source: `handleTouchMove(e)`. -/
def handleTouchMove (env : Env) (e : TouchEvent) (s : ImageViewer) : ImageViewer :=
  if !s.isDragging ∨ e.touches.length ≠ 1 then s
  else
    match e.touches with
    | touch :: _ =>
      let dx := |touch.clientX - s.dragStartX|
      let dy := |touch.clientY - s.dragStartY|
      let hasMoved := if dx > 5 ∨ dy > 5 then true else s.hasMoved
      updateTransform (constrainPosition env
        { s with hasMoved := hasMoved,
                 posX := touch.clientX - s.startX, posY := touch.clientY - s.startY })
    | [] => s

/-- Source: `reset()`. -/
def reset (env : Env) (s : ImageViewer) : ImageViewer :=
  updateTransform (constrainPosition env { s with scale := 1, posX := 0, posY := 0 })

/-- Source: `fitToScreen()`. -/
def fitToScreen (env : Env) (s : ImageViewer) : ImageViewer :=
  updateTransform (constrainPosition env { s with scale := minScale, posX := 0, posY := 0 })

/-- Source: `handleKeyboard(e)`, by `e.key`. -/
def handleKeyboard (env : Env) (key : String) (s : ImageViewer) : ImageViewer :=
  if key = "+" ∨ key = "=" then zoom env (1 / 10) s
  else if key = "-" then zoom env (-(1 / 10)) s
  else if key = "0" then reset env s
  else if key = "ArrowUp" then
    updateTransform (constrainPosition env { s with posY := s.posY + 50 })
  else if key = "ArrowDown" then
    updateTransform (constrainPosition env { s with posY := s.posY - 50 })
  else if key = "ArrowLeft" then
    updateTransform (constrainPosition env { s with posX := s.posX + 50 })
  else if key = "ArrowRight" then
    updateTransform (constrainPosition env { s with posX := s.posX - 50 })
  else s

/-! ## Track player and marker dispatcher -/

/-- Result of a method of the audio part: the state where it stopped and whether it
stopped by throwing a `TypeError` on `this.currentMarker.classList`. -/
structure Outcome where
  state : ImageViewer
  threw : Bool
  deriving DecidableEq

/-- JavaScript truthiness of a `dataset` entry: defined and not the empty string. -/
def truthy : Option String → Bool
  | some v => decide (v ≠ "")
  | none => false

/-- The JavaScript expression `a || b` for a `dataset` entry `a`. -/
def orElse (a : Option String) (b : String) : String :=
  match a with
  | some v => if v ≠ "" then v else b
  | none => b

/-- Applies `f` to the `Audio` object behind handle `h`. -/
def modifyAudio (h : Nat) (f : Audio → Audio) (s : ImageViewer) : ImageViewer :=
  { s with audios :=
      match s.audios[h]? with
      | some a => s.audios.set h (f a)
      | none => s.audios }

/-- Media primitive `audio.play()`: playback starts (start rejection is not handled
by the source and not modelled). -/
def audioPlay (h : Nat) (s : ImageViewer) : ImageViewer :=
  modifyAudio h (fun a => { a with paused := false }) s

/-- Media primitive `audio.pause()`. -/
def audioPause (h : Nat) (s : ImageViewer) : ImageViewer :=
  modifyAudio h (fun a => { a with paused := true }) s

/-- Media primitive `audio.currentTime = t`. -/
def audioSetCurrentTime (h : Nat) (t : ℚ) (s : ImageViewer) : ImageViewer :=
  modifyAudio h (fun a => { a with currentTime := t }) s

/-- Media primitive `audio.paused`; handles held by the viewer always exist. -/
def audioPaused (h : Nat) (s : ImageViewer) : Bool :=
  match s.audios[h]? with
  | some a => a.paused
  | none => true

/-- Media primitive `new Audio(src)`: a fresh paused element at position 0; its handle
is the length of `audios` before the call. -/
def newAudio (src : String) (s : ImageViewer) : ImageViewer :=
  { s with audios := s.audios ++ [{ src := src, paused := true, currentTime := 0,
                                    onended := none }] }

/-- Source: `audio.addEventListener('ended', …)` with the track index the closure
captures. -/
def addEndedListener (h : Nat) (index : Nat) (s : ImageViewer) : ImageViewer :=
  modifyAudio h (fun a => { a with onended := some index }) s

/-- Source: `marker.classList.add('playing')`. -/
def classAdd (m : Marker) (s : ImageViewer) : ImageViewer :=
  { s with playingClass :=
      if m.id ∈ s.playingClass then s.playingClass else m.id :: s.playingClass }

/-- Source: `marker.classList.remove('playing')`. -/
def classRemove (m : Marker) (s : ImageViewer) : ImageViewer :=
  { s with playingClass := s.playingClass.filter (fun i => decide (i ≠ m.id)) }

/-- The play icon `resource/play.png`. -/
def playIcon : String := "resource/play.png"

/-- The pause icon `resource/pause.png`. -/
def pauseIcon : String := "resource/pause.png"

/-- Source: `updateTrackUI(index, isPlaying)`. -/
def updateTrackUI (index : Nat) (isPlaying : Bool) (s : ImageViewer) : ImageViewer :=
  let s1 := { s with track1Row := { s.track1Row with iconSrc := playIcon },
                     track2Row := { s.track2Row with iconSrc := playIcon } }
  let src := if isPlaying then pauseIcon else playIcon
  let alt := if isPlaying then "일시정지" else "재생"
  if index = 0 then
    { s1 with track1Row := { s1.track1Row with iconSrc := src, iconAlt := alt } }
  else
    { s1 with track2Row := { s1.track2Row with iconSrc := src, iconAlt := alt } }

/-- Source: `stopAudio()`. -/
def stopAudio (s : ImageViewer) : ImageViewer :=
  let s1 := match s.currentAudio with
    | some h => audioSetCurrentTime h 0 (audioPause h s)
    | none => s
  let s2 := match s1.currentMarker with
    | some m => classRemove m s1
    | none => s1
  { s2 with currentAudio := none, currentMarker := none, tracks := none,
            track1Row := { s2.track1Row with iconSrc := playIcon },
            track2Row := { s2.track2Row with iconSrc := playIcon } }

/-- Source: `showDualTracks(name1, name2)`. -/
def showDualTracks (name1 name2 : String) (s : ImageViewer) : ImageViewer :=
  { s with controlsVisible := true,
           track1Row := { s.track1Row with display := "flex", label := name1 },
           track2Row := { s.track2Row with display := "flex", label := name2 } }

/-- Source: `showSingleTrack(name)`. -/
def showSingleTrack (name : String) (s : ImageViewer) : ImageViewer :=
  { s with controlsVisible := true,
           track1Row := { s.track1Row with display := "flex", label := name },
           track2Row := { s.track2Row with display := "none" } }

/-- Source: `playTrack(index)`. -/
def playTrack (index : Nat) (s : ImageViewer) : Outcome :=
  match s.tracks with
  | none => ⟨s, false⟩
  | some tracks =>
    match tracks[index]? with
    | none => ⟨s, false⟩
    | some track =>
      match s.currentAudio with
      | some h =>
        if s.currentTrackIndex = index then
          if audioPaused h s then
            let s1 := audioPlay h s
            match s1.currentMarker with
            | none => ⟨s1, true⟩
            | some m => ⟨updateTrackUI index true (classAdd m s1), false⟩
          else
            let s1 := audioPause h s
            match s1.currentMarker with
            | none => ⟨s1, true⟩
            | some m => ⟨updateTrackUI index false (classRemove m s1), false⟩
        else
          let s1 := updateTrackUI s.currentTrackIndex false
            (audioSetCurrentTime h 0 (audioPause h s))
          let h1 := s1.audios.length
          let s2 := audioPlay h1
            { newAudio track.src s1 with currentAudio := some h1, currentTrackIndex := index }
          match s2.currentMarker with
          | none => ⟨s2, true⟩
          | some m => ⟨addEndedListener h1 index (updateTrackUI index true (classAdd m s2)), false⟩
      | none =>
        let h1 := s.audios.length
        let s2 := audioPlay h1
          { newAudio track.src s with currentAudio := some h1, currentTrackIndex := index }
        match s2.currentMarker with
        | none => ⟨s2, true⟩
        | some m => ⟨addEndedListener h1 index (updateTrackUI index true (classAdd m s2)), false⟩

/-- Source: `handleMarkerClick(marker)`; `r` is the value `Math.random()` returns if it
is called. -/
def handleMarkerClick (marker : Marker) (r : ℚ) (s : ImageViewer) : Outcome :=
  match marker.audio with
  | none => ⟨s, false⟩
  | some audioSrc =>
    if audioSrc = "" then ⟨s, false⟩
    else
      let placeName := orElse marker.name (marker.title.getD marker.alt)
      let s1 := stopAudio s
      if truthy marker.audio2 then
        let tracks : List Track :=
          [{ name := placeName, src := audioSrc },
           { name := orElse marker.name2 "트랙 2", src := marker.audio2.getD "" }]
        let s2 := { s1 with currentMarker := some marker, tracks := some tracks }
        let s3 := showDualTracks placeName (orElse marker.name2 "트랙 2") s2
        let randomIndex := ⌊r * 2⌋₊
        playTrack randomIndex s3
      else
        let s2 := { s1 with currentMarker := some marker,
                            tracks := some [{ name := placeName, src := audioSrc }] }
        playTrack 0 (showSingleTrack placeName s2)

/-- Source: the `click` and `touchend` listeners `bindMarkerEvents` puts on a marker. -/
def markerClick (marker : Marker) (r : ℚ) (s : ImageViewer) : Outcome :=
  if s.hasMoved then ⟨s, false⟩ else handleMarkerClick marker r s

/-- Source: the `ended` listener registered by `playTrack(index)`. -/
def endedListener (index : Nat) (s : ImageViewer) : Outcome :=
  match s.currentMarker with
  | none => ⟨s, true⟩
  | some m => ⟨{ updateTrackUI index false (classRemove m s) with currentAudio := none }, false⟩

/-- End-of-track notification of handle `h`: the media element, having played to its
end, sets `paused` and dispatches `ended` to the listener registered on it. -/
def trackEnded (h : Nat) (s : ImageViewer) : Outcome :=
  match s.audios[h]? with
  | none => ⟨s, false⟩
  | some a =>
    match a.onended with
    | some index => endedListener index (audioPause h s)
    | none => ⟨audioPause h s, false⟩

/-- Playback progress of the media element behind `h`: while it is not paused its
position advances by `dt`. -/
def playbackAdvance (h : Nat) (dt : ℚ) (s : ImageViewer) : ImageViewer :=
  modifyAudio h (fun a => if a.paused then a else { a with currentTime := a.currentTime + dt }) s

/-- Handle `h` exists and is in the playing state. -/
def IsPlaying (s : ImageViewer) (h : Nat) : Prop :=
  ∃ a, s.audios[h]? = some a ∧ a.paused = false

/-- The fields set by the constructor; the track rows and the controls are the
elements `bindEvents` looks up in the page.  `dragStartX`/`dragStartY` are
`undefined` until the first `startDrag` and only read while `isDragging`. -/
def construct (page : Page) : ImageViewer :=
  { scale := 1, posX := 0, posY := 0,
    isDragging := false, hasMoved := false,
    startX := 0, startY := 0, dragStartX := 0, dragStartY := 0,
    currentAudio := none, currentMarker := none, currentTrackIndex := 0,
    tracks := none,
    controlsVisible := page.controlsVisible,
    track1Row := page.track1Row, track2Row := page.track2Row,
    audios := [], playingClass := [], draggingClass := false,
    transform := none }

/-- The states reachable from the constructed viewer through marker activations,
track buttons, `stopAudio`, playback progress and end-of-track notifications that are
delivered while the ended handle is still playing or is the active one. -/
inductive Reachable (page : Page) : ImageViewer → Prop
  | init : Reachable page (ImageViewer.construct page)
  | click (marker : Marker) (r : ℚ) {s : ImageViewer} :
      Reachable page s → Reachable page (handleMarkerClick marker r s).state
  | play (index : Nat) {s : ImageViewer} :
      Reachable page s → Reachable page (playTrack index s).state
  | stop {s : ImageViewer} :
      Reachable page s → Reachable page (stopAudio s)
  | ended (h : Nat) {s : ImageViewer} :
      Reachable page s → (IsPlaying s h ∨ s.currentAudio = some h) →
      Reachable page (trackEnded h s).state
  | advance (h : Nat) (dt : ℚ) {s : ImageViewer} :
      Reachable page s → 0 ≤ dt → Reachable page (playbackAdvance h dt s)

/-- The states reachable from the constructed viewer through any sequence of marker
activations, track buttons, `stopAudio`, playback progress and end-of-track
notifications, where a notification may be delivered for any handle, also one the
player has already switched away from. -/
inductive ReachableLate (page : Page) : ImageViewer → Prop
  | init : ReachableLate page (ImageViewer.construct page)
  | click (marker : Marker) (r : ℚ) {s : ImageViewer} :
      ReachableLate page s → ReachableLate page (handleMarkerClick marker r s).state
  | play (index : Nat) {s : ImageViewer} :
      ReachableLate page s → ReachableLate page (playTrack index s).state
  | stop {s : ImageViewer} :
      ReachableLate page s → ReachableLate page (stopAudio s)
  | ended (h : Nat) {s : ImageViewer} :
      ReachableLate page s → ReachableLate page (trackEnded h s).state
  | advance (h : Nat) (dt : ℚ) {s : ImageViewer} :
      ReachableLate page s → 0 ≤ dt → ReachableLate page (playbackAdvance h dt s)

/-- Single-playback invariant: every playing handle is the one in `currentAudio`. -/
def SinglePlayback (s : ImageViewer) : Prop :=
  ∀ h, IsPlaying s h → s.currentAudio = some h

/-- Null-safety chain: a track list comes with a marker, an active handle exists and
comes with a track list in which `currentTrackIndex` is a valid index. -/
def Linked (s : ImageViewer) : Prop :=
  (s.tracks ≠ none → s.currentMarker ≠ none) ∧
  (∀ h, s.currentAudio = some h →
    h < s.audios.length ∧ ∃ tracks, s.tracks = some tracks ∧ s.currentTrackIndex < tracks.length)

/-- At most one of the two track rows shows the pause icon. -/
def AtMostOnePause (s : ImageViewer) : Prop :=
  ¬ (s.track1Row.iconSrc = pauseIcon ∧ s.track2Row.iconSrc = pauseIcon)


/-- The state the offset clamp of `constrainPosition` establishes: on each axis the
image is centred when it fits and otherwise covers the viewport. -/
def Constrained (env : Env) (s : ImageViewer) : Prop :=
  (if imageDisplayWidth env s.scale ≤ env.width
    then s.posX = (env.width - imageDisplayWidth env s.scale) / 2
    else env.width - imageDisplayWidth env s.scale ≤ s.posX ∧ s.posX ≤ 0) ∧
  (if imageDisplayHeight env s.scale ≤ env.height
    then s.posY = (env.height - imageDisplayHeight env s.scale) / 2
    else env.height - imageDisplayHeight env s.scale ≤ s.posY ∧ s.posY ≤ 0)

instance (env : Env) (s : ImageViewer) : Decidable (Constrained env s) := by
  unfold Constrained; infer_instance

/-- Spec wording of §4.1 for `reset`: the centred offset `(viewport - display) / 2`
brought into the allowed range of the axis. -/
def clampedCentered (viewport display : ℚ) : ℚ :=
  if display ≤ viewport then (viewport - display) / 2
  else max (viewport - display) (min 0 ((viewport - display) / 2))

/-! ## Concrete inputs used by the examples below -/

/-- A page whose two track rows are hidden and show the play icon. -/
def samplePage : Page :=
  { track1Row := { display := "none", label := "", iconSrc := playIcon, iconAlt := "재생" },
    track2Row := { display := "none", label := "", iconSrc := playIcon, iconAlt := "재생" },
    controlsVisible := false }

/-- A wide 1000 by 500 viewport showing a square image. -/
def squareEnv : Env :=
  { left := 0, top := 0, width := 1000, height := 500,
    naturalWidth := 1, naturalHeight := 1, innerWidth := 1000 }

/-- A wide 1000 by 500 viewport showing an image four times as wide as high. -/
def flatEnv : Env :=
  { left := 0, top := 0, width := 1000, height := 500,
    naturalWidth := 4, naturalHeight := 1, innerWidth := 1000 }

/-- A marker with two tracks. -/
def markerA : Marker :=
  { id := 1, audio := some "a.mp3", audio2 := some "a2.mp3", name := none, name2 := none,
    title := some "A", alt := "marker A" }

/-- A marker with a single track. -/
def markerB : Marker :=
  { id := 2, audio := some "b.mp3", audio2 := none, name := none, name2 := none,
    title := none, alt := "marker B" }

/-- A viewer playing the first of the two tracks of `markerA`, three seconds in. -/
def playingState : ImageViewer :=
  { construct samplePage with
    currentAudio := some 0,
    currentMarker := some markerA,
    currentTrackIndex := 0,
    tracks := some [{ name := "A", src := "a.mp3" }, { name := "트랙 2", src := "a2.mp3" }],
    audios := [{ src := "a.mp3", paused := false, currentTime := 3, onended := some 0 }],
    playingClass := [1] }

/-- The viewer after marker A is activated with the draw 1/2: its second track
(`a2.mp3`) plays on handle 0. -/
def afterClick : ImageViewer :=
  (handleMarkerClick markerA (1 / 2) (construct samplePage)).state

/-- The viewer after the button of track 1 is then pressed: handle 0 is paused and
rewound, `a.mp3` plays on handle 1. -/
def afterSwitch : ImageViewer := (playTrack 0 afterClick).state

/-- The viewer after the end-of-track notification of handle 0 is then delivered. -/
def afterLateEnded : ImageViewer := (trackEnded 0 afterSwitch).state

/-! ## Viewport: scale bounds -/

theorem clampScale_mem (x : ℚ) :
    minScale ≤ max minScale (min maxScale x) ∧ max minScale (min maxScale x) ≤ maxScale := by
  refine ⟨le_max_left _ _, max_le ?_ (min_le_left _ _)⟩
  norm_num [minScale, defaultScale, maxScale]

theorem constrainPosition_scale (env : Env) (s : ImageViewer) :
    (constrainPosition env s).scale = s.scale := rfl

theorem updateTransform_scale (s : ImageViewer) : (updateTransform s).scale = s.scale := rfl

theorem handleWheel_scale (env : Env) (e : WheelEvent) (s : ImageViewer) :
    (handleWheel env e s).scale =
      max minScale (min maxScale (s.scale + (if e.deltaY > 0 then -(5 / 100) else 5 / 100))) := by
  unfold handleWheel
  simp only
  split_ifs with h1 h2 h2
  · rfl
  · exact (not_not.mp h2).symm
  · rfl
  · exact (not_not.mp h2).symm

theorem zoom_scale (env : Env) (delta : ℚ) (s : ImageViewer) :
    (zoom env delta s).scale = max minScale (min maxScale (s.scale + delta)) := by
  unfold zoom
  simp only
  split_ifs with h
  · rfl
  · exact (not_not.mp h).symm


/-! ## Viewport: the offset clamp -/

theorem updateTransform_posX (s : ImageViewer) : (updateTransform s).posX = s.posX := rfl

theorem updateTransform_posY (s : ImageViewer) : (updateTransform s).posY = s.posY := rfl

theorem constrained_updateTransform (env : Env) (s : ImageViewer) :
    Constrained env (updateTransform s) ↔ Constrained env s := Iff.rfl

theorem constrained_constrainPosition (env : Env) (s : ImageViewer) :
    Constrained env (constrainPosition env s) := by
  unfold Constrained
  rw [constrainPosition_scale]
  constructor
  · by_cases h : imageDisplayWidth env s.scale ≤ env.width
    · simp [constrainPosition, h]
    · have h1 := lt_of_not_le h
      simp only [constrainPosition, if_neg h]
      exact ⟨le_max_left _ _, max_le (by linarith) (min_le_left _ _)⟩
  · by_cases h : imageDisplayHeight env s.scale ≤ env.height
    · simp [constrainPosition, h]
    · have h1 := lt_of_not_le h
      simp only [constrainPosition, if_neg h]
      exact ⟨le_max_left _ _, max_le (by linarith) (min_le_left _ _)⟩

theorem handleWheel_eq_of_scale_eq (env : Env) (e : WheelEvent) (s : ImageViewer)
    (h : (handleWheel env e s).scale = s.scale) : handleWheel env e s = s := by
  rw [handleWheel_scale] at h
  unfold handleWheel
  simp only
  rw [if_neg (not_not.mpr h)]

theorem handleWheel_constrained (env : Env) (e : WheelEvent) (s : ImageViewer)
    (h : (handleWheel env e s).scale ≠ s.scale) : Constrained env (handleWheel env e s) := by
  rw [handleWheel_scale] at h
  unfold handleWheel
  simp only
  rw [if_pos h]
  exact (constrained_updateTransform _ _).mpr (constrained_constrainPosition _ _)

theorem zoom_eq_of_scale_eq (env : Env) (delta : ℚ) (s : ImageViewer)
    (h : (zoom env delta s).scale = s.scale) : zoom env delta s = s := by
  rw [zoom_scale] at h
  unfold zoom
  simp only
  rw [if_neg (not_not.mpr h)]

theorem zoom_constrained (env : Env) (delta : ℚ) (s : ImageViewer)
    (h : (zoom env delta s).scale ≠ s.scale) : Constrained env (zoom env delta s) := by
  rw [zoom_scale] at h
  unfold zoom
  simp only
  rw [if_pos h]
  exact (constrained_updateTransform _ _).mpr (constrained_constrainPosition _ _)

theorem drag_constrained (env : Env) (e : MouseEvent) (s : ImageViewer)
    (h : s.isDragging = true) : Constrained env (drag env e s) := by
  unfold drag
  simp only [h, Bool.not_true, Bool.false_eq_true, if_false]
  exact (constrained_updateTransform _ _).mpr (constrained_constrainPosition _ _)

theorem drag_idle (env : Env) (e : MouseEvent) (s : ImageViewer)
    (h : s.isDragging = false) : drag env e s = s := by
  unfold drag
  simp [h]

theorem handleTouchMove_constrained (env : Env) (e : TouchEvent) (s : ImageViewer)
    (h : s.isDragging = true) (h1 : e.touches.length = 1) :
    Constrained env (handleTouchMove env e s) := by
  obtain ⟨touches⟩ := e
  match touches, h1 with
  | touch :: rest, h1 =>
    unfold handleTouchMove
    simp only [h, h1, Bool.not_true, Bool.false_eq_true, ne_eq, not_true_eq_false, or_self,
      if_false]
    exact (constrained_updateTransform _ _).mpr (constrained_constrainPosition _ _)

theorem handleTouchMove_idle (env : Env) (e : TouchEvent) (s : ImageViewer)
    (h : s.isDragging = false ∨ e.touches.length ≠ 1) : handleTouchMove env e s = s := by
  unfold handleTouchMove
  rcases h with h | h <;> simp [h]

theorem arrowKey_constrained (env : Env) (key : String) (s : ImageViewer)
    (h : key ∈ ["ArrowUp", "ArrowDown", "ArrowLeft", "ArrowRight"]) :
    Constrained env (handleKeyboard env key s) := by
  simp only [List.mem_cons, List.mem_singleton, List.not_mem_nil, or_false] at h
  rcases h with h | h | h | h <;> subst h <;>
    simp only [handleKeyboard] <;>
    exact (constrained_updateTransform _ _).mpr (constrained_constrainPosition _ _)

/-! ## C1: the scale stays within its bounds -/

/-- C1. With `minScale = defaultScale = 0.7` and `maxScale = 1.5`, after `handleWheel`
(any `deltaY`), `zoom` (any `delta`), `reset`, `fitToScreen` and `setupInitialPosition`
the scale lies in `[minScale, maxScale]`, from every viewer state; a request beyond a
bound yields that bound. -/
theorem scale_within_bounds (env : Env) (s : ImageViewer) (e : WheelEvent) (delta : ℚ) :
    minScale = 7 / 10 ∧ defaultScale = 7 / 10 ∧ maxScale = 3 / 2 ∧
    (minScale ≤ (handleWheel env e s).scale ∧ (handleWheel env e s).scale ≤ maxScale) ∧
    (minScale ≤ (zoom env delta s).scale ∧ (zoom env delta s).scale ≤ maxScale) ∧
    (minScale ≤ (reset env s).scale ∧ (reset env s).scale ≤ maxScale) ∧
    (minScale ≤ (fitToScreen env s).scale ∧ (fitToScreen env s).scale ≤ maxScale) ∧
    (minScale ≤ (setupInitialPosition env s).scale ∧
      (setupInitialPosition env s).scale ≤ maxScale) ∧
    (maxScale ≤ s.scale + delta → (zoom env delta s).scale = maxScale) ∧
    (s.scale + delta ≤ minScale → (zoom env delta s).scale = minScale) ∧
    (maxScale ≤ s.scale + 5 / 100 → e.deltaY ≤ 0 → (handleWheel env e s).scale = maxScale) ∧
    (s.scale - 5 / 100 ≤ minScale → 0 < e.deltaY → (handleWheel env e s).scale = minScale) := by
  have hmin : minScale = 7 / 10 := rfl
  have hmax : maxScale = 3 / 2 := rfl
  have hle : minScale ≤ maxScale := by norm_num [hmin, hmax]
  refine ⟨rfl, rfl, rfl, ?_, ?_, ?_, ?_, ?_, ?_, ?_, ?_, ?_⟩
  · rw [handleWheel_scale]; exact clampScale_mem _
  · rw [zoom_scale]; exact clampScale_mem _
  · show minScale ≤ (1 : ℚ) ∧ (1 : ℚ) ≤ maxScale
    norm_num [hmin, hmax]
  · show minScale ≤ minScale ∧ minScale ≤ maxScale
    exact ⟨le_refl _, hle⟩
  · show minScale ≤ defaultScale ∧ defaultScale ≤ maxScale
    exact ⟨le_refl _, hle⟩
  · intro h
    rw [zoom_scale, min_eq_left h, max_eq_right hle]
  · intro h
    rw [zoom_scale, min_eq_right (le_trans h hle), max_eq_left h]
  · intro h hd
    rw [handleWheel_scale, if_neg (not_lt.mpr hd), min_eq_left h, max_eq_right hle]
  · intro h hd
    have h1 : s.scale + -(5 / 100) ≤ minScale := by linarith
    rw [handleWheel_scale, if_pos hd, min_eq_right (le_trans h1 hle), max_eq_left h1]

/-- C1, instance: from the constructed scale 1 a zoom request of +1 ends at
`maxScale`. -/
theorem scale_within_bounds_witness :
    maxScale ≤ (construct samplePage).scale + 1 ∧
    (zoom squareEnv 1 (construct samplePage)).scale = maxScale :=
  ⟨by norm_num [construct, maxScale],
   (scale_within_bounds squareEnv (construct samplePage) ⟨0, 0, 1⟩ 1).2.2.2.2.2.2.2.2.1
     (by norm_num [construct, maxScale])⟩

/-! ## C2: pan and zoom end in a constrained state -/

/-- C2 as stated fails for `drag`: a `mousemove` that arrives while no drag is in
progress returns at the guard and leaves the freshly constructed viewer, whose image
(250 high in a 500 high viewport) is not centred, as it is. -/
theorem drag_idle_not_constrained :
    0 < flatEnv.width ∧ 0 < flatEnv.height ∧
    ¬ Constrained flatEnv (drag flatEnv ⟨10, 10⟩ (construct samplePage)) := by
  refine ⟨by norm_num [flatEnv], by norm_num [flatEnv], ?_⟩
  rw [drag_idle _ _ _ rfl]
  norm_num [Constrained, construct, imageDisplayWidth, imageDisplayHeight, isMobile,
    aspectRatio, flatEnv]

/-- C2, amended. The state produced by `constrainPosition` satisfies on each axis:
offset `= (viewport - display) / 2` if the display size is at most the viewport size,
otherwise `viewport - display ≤ offset ≤ 0`, the display size being `W*scale` by
`W*aspect*scale` on wide viewports and `(H/aspect)*scale` by `H*scale` on narrow ones.
`drag` while a drag is in progress, `handleTouchMove` while a drag is in progress and
the event has exactly one touch, the arrow keys, `reset`, `fitToScreen`, and
`handleWheel`/`zoom` when they change the scale end in such a state; `drag` and
`handleTouchMove` outside a drag (or with another number of touches) and
`handleWheel`/`zoom` that do not change the scale leave the state untouched. -/
theorem pan_zoom_constrained (env : Env) (s : ImageViewer) :
    (imageDisplayWidth env s.scale =
        (if env.innerWidth ≤ 768
          then env.height / (env.naturalHeight / env.naturalWidth) * s.scale
          else env.width * s.scale) ∧
      imageDisplayHeight env s.scale =
        (if env.innerWidth ≤ 768
          then env.height * s.scale
          else env.width * (env.naturalHeight / env.naturalWidth) * s.scale)) ∧
    Constrained env (constrainPosition env s) ∧
    (∀ e, s.isDragging = true → Constrained env (drag env e s)) ∧
    (∀ e, s.isDragging = false → drag env e s = s) ∧
    (∀ e, s.isDragging = true → e.touches.length = 1 →
      Constrained env (handleTouchMove env e s)) ∧
    (∀ e, s.isDragging = false ∨ e.touches.length ≠ 1 → handleTouchMove env e s = s) ∧
    (∀ key, key ∈ ["ArrowUp", "ArrowDown", "ArrowLeft", "ArrowRight"] →
      Constrained env (handleKeyboard env key s)) ∧
    Constrained env (reset env s) ∧
    Constrained env (fitToScreen env s) ∧
    (∀ e, (handleWheel env e s).scale ≠ s.scale → Constrained env (handleWheel env e s)) ∧
    (∀ e, (handleWheel env e s).scale = s.scale → handleWheel env e s = s) ∧
    (∀ delta, (zoom env delta s).scale ≠ s.scale → Constrained env (zoom env delta s)) ∧
    (∀ delta, (zoom env delta s).scale = s.scale → zoom env delta s = s) := by
  refine ⟨⟨?_, ?_⟩, constrained_constrainPosition env s,
    fun e h => drag_constrained env e s h, fun e h => drag_idle env e s h,
    fun e h h1 => handleTouchMove_constrained env e s h h1,
    fun e h => handleTouchMove_idle env e s h,
    fun key h => arrowKey_constrained env key s h,
    (constrained_updateTransform _ _).mpr (constrained_constrainPosition _ _),
    (constrained_updateTransform _ _).mpr (constrained_constrainPosition _ _),
    fun e h => handleWheel_constrained env e s h,
    fun e h => handleWheel_eq_of_scale_eq env e s h,
    fun delta h => zoom_constrained env delta s h,
    fun delta h => zoom_eq_of_scale_eq env delta s h⟩
  · simp [imageDisplayWidth, isMobile, aspectRatio]
  · simp [imageDisplayHeight, isMobile, aspectRatio]

/-- C2, instance: a mouse move during a drag started on the constructed viewer ends in
a constrained state. -/
theorem pan_zoom_constrained_witness :
    (startDrag ⟨10, 10⟩ (construct samplePage)).isDragging = true ∧
    Constrained flatEnv (drag flatEnv ⟨30, 40⟩ (startDrag ⟨10, 10⟩ (construct samplePage))) :=
  ⟨rfl, (pan_zoom_constrained flatEnv (startDrag ⟨10, 10⟩ (construct samplePage))).2.2.1
    ⟨30, 40⟩ rfl⟩

/-! ## C8: reset and fitToScreen -/

theorem constrainPosition_origin (env : Env) (s : ImageViewer)
    (hx : s.posX = 0) (hy : s.posY = 0) :
    (constrainPosition env s).posX =
        (if imageDisplayWidth env s.scale ≤ env.width
          then (env.width - imageDisplayWidth env s.scale) / 2 else 0) ∧
    (constrainPosition env s).posY =
        (if imageDisplayHeight env s.scale ≤ env.height
          then (env.height - imageDisplayHeight env s.scale) / 2 else 0) := by
  constructor
  · by_cases h : imageDisplayWidth env s.scale ≤ env.width
    · simp [constrainPosition, h]
    · have h1 := lt_of_not_le h
      simp only [constrainPosition, if_neg h, hx, min_self]
      exact max_eq_right (by linarith)
  · by_cases h : imageDisplayHeight env s.scale ≤ env.height
    · simp [constrainPosition, h]
    · have h1 := lt_of_not_le h
      simp only [constrainPosition, if_neg h, hy, min_self]
      exact max_eq_right (by linarith)

/-- C8 as stated fails: with a square image in a 1000 by 500 wide viewport the image is
1000 high after `reset` and 700 high after `fitToScreen`; the centred offset, -250 and
-100, lies inside the allowed range, yet both methods end with vertical offset 0. -/
theorem reset_not_clamped_centered :
    (reset squareEnv (construct samplePage)).posY ≠
      clampedCentered squareEnv.height
        (imageDisplayHeight squareEnv (reset squareEnv (construct samplePage)).scale) ∧
    (fitToScreen squareEnv (construct samplePage)).posY ≠
      clampedCentered squareEnv.height
        (imageDisplayHeight squareEnv (fitToScreen squareEnv (construct samplePage)).scale) := by
  constructor
  · rw [show (reset squareEnv (construct samplePage)).posY = 0 by
      norm_num [reset, updateTransform, constrainPosition, construct, imageDisplayWidth,
        imageDisplayHeight, isMobile, aspectRatio, squareEnv]]
    norm_num [reset, updateTransform, constrainPosition, construct, imageDisplayWidth,
      imageDisplayHeight, isMobile, aspectRatio, squareEnv, clampedCentered]
  · rw [show (fitToScreen squareEnv (construct samplePage)).posY = 0 by
      norm_num [fitToScreen, updateTransform, constrainPosition, construct,
        imageDisplayWidth, imageDisplayHeight, isMobile, aspectRatio, squareEnv, minScale,
        defaultScale]]
    norm_num [fitToScreen, updateTransform, constrainPosition, construct, imageDisplayWidth,
      imageDisplayHeight, isMobile, aspectRatio, squareEnv, clampedCentered, minScale,
      defaultScale]

/-- C8, amended. `reset()` sets the scale to 1 and `fitToScreen()` sets it to
`minScale`; in both cases the resulting offset on each axis is
`(viewport - display) / 2` when the display size is at most the viewport size and 0
(the left or top edge of the image on the edge of the viewport) otherwise. -/
theorem reset_fitToScreen_spec (env : Env) (s : ImageViewer) :
    (reset env s).scale = 1 ∧
    (reset env s).posX =
      (if imageDisplayWidth env 1 ≤ env.width
        then (env.width - imageDisplayWidth env 1) / 2 else 0) ∧
    (reset env s).posY =
      (if imageDisplayHeight env 1 ≤ env.height
        then (env.height - imageDisplayHeight env 1) / 2 else 0) ∧
    (fitToScreen env s).scale = minScale ∧
    (fitToScreen env s).posX =
      (if imageDisplayWidth env minScale ≤ env.width
        then (env.width - imageDisplayWidth env minScale) / 2 else 0) ∧
    (fitToScreen env s).posY =
      (if imageDisplayHeight env minScale ≤ env.height
        then (env.height - imageDisplayHeight env minScale) / 2 else 0) := by
  have h1 := constrainPosition_origin env { s with scale := 1, posX := 0, posY := 0 } rfl rfl
  have h2 := constrainPosition_origin env { s with scale := minScale, posX := 0, posY := 0 }
    rfl rfl
  exact ⟨rfl, h1.1, h1.2, rfl, h2.1, h2.2⟩

/-! ## C3: zoom at a point -/

theorem minScale_pos : 0 < minScale := by norm_num [minScale, defaultScale]

theorem clampScale_pos (x : ℚ) : 0 < max minScale (min maxScale x) :=
  lt_of_lt_of_le minScale_pos (le_max_left _ _)

theorem constrainPosition_posX_of_mem (env : Env) (s : ImageViewer)
    (h : env.width < imageDisplayWidth env s.scale)
    (h1 : env.width - imageDisplayWidth env s.scale ≤ s.posX) (h2 : s.posX ≤ 0) :
    (constrainPosition env s).posX = s.posX := by
  simp only [constrainPosition, if_neg (not_le.mpr h)]
  rw [min_eq_right h2, max_eq_right h1]

theorem constrainPosition_posY_of_mem (env : Env) (s : ImageViewer)
    (h : env.height < imageDisplayHeight env s.scale)
    (h1 : env.height - imageDisplayHeight env s.scale ≤ s.posY) (h2 : s.posY ≤ 0) :
    (constrainPosition env s).posY = s.posY := by
  simp only [constrainPosition, if_neg (not_le.mpr h)]
  rw [min_eq_right h2, max_eq_right h1]

theorem anchor_iff (anchor pos newScale coord : ℚ) (h : 0 < newScale) :
    (anchor - pos) / newScale = coord ↔ pos = anchor - coord * newScale := by
  rw [div_eq_iff h.ne']
  constructor
  · intro h1; linarith
  · intro h1; linarith

theorem handleWheel_scale_pos (env : Env) (e : WheelEvent) (s : ImageViewer) :
    0 < (handleWheel env e s).scale := by
  rw [handleWheel_scale]; exact clampScale_pos _

theorem zoom_scale_pos (env : Env) (delta : ℚ) (s : ImageViewer) :
    0 < (zoom env delta s).scale := by
  rw [zoom_scale]; exact clampScale_pos _

theorem handleWheel_posX_of_mem (env : Env) (e : WheelEvent) (s : ImageViewer)
    (hs : 0 < s.scale)
    (h : env.width < imageDisplayWidth env (handleWheel env e s).scale)
    (h1 : env.width - imageDisplayWidth env (handleWheel env e s).scale ≤
      (e.clientX - env.left) -
        (e.clientX - env.left - s.posX) / s.scale * (handleWheel env e s).scale)
    (h2 : (e.clientX - env.left) -
        (e.clientX - env.left - s.posX) / s.scale * (handleWheel env e s).scale ≤ 0) :
    (handleWheel env e s).posX =
      (e.clientX - env.left) -
        (e.clientX - env.left - s.posX) / s.scale * (handleWheel env e s).scale := by
  by_cases hc : (handleWheel env e s).scale = s.scale
  · rw [hc, handleWheel_eq_of_scale_eq env e s hc, div_mul_cancel₀ _ hs.ne']
    ring
  · rw [handleWheel_scale] at hc h h1 h2 ⊢
    unfold handleWheel
    simp only
    rw [if_pos hc]
    exact constrainPosition_posX_of_mem env _ h h1 h2

theorem handleWheel_posY_of_mem (env : Env) (e : WheelEvent) (s : ImageViewer)
    (hs : 0 < s.scale)
    (h : env.height < imageDisplayHeight env (handleWheel env e s).scale)
    (h1 : env.height - imageDisplayHeight env (handleWheel env e s).scale ≤
      (e.clientY - env.top) -
        (e.clientY - env.top - s.posY) / s.scale * (handleWheel env e s).scale)
    (h2 : (e.clientY - env.top) -
        (e.clientY - env.top - s.posY) / s.scale * (handleWheel env e s).scale ≤ 0) :
    (handleWheel env e s).posY =
      (e.clientY - env.top) -
        (e.clientY - env.top - s.posY) / s.scale * (handleWheel env e s).scale := by
  by_cases hc : (handleWheel env e s).scale = s.scale
  · rw [hc, handleWheel_eq_of_scale_eq env e s hc, div_mul_cancel₀ _ hs.ne']
    ring
  · rw [handleWheel_scale] at hc h h1 h2 ⊢
    unfold handleWheel
    simp only
    rw [if_pos hc]
    exact constrainPosition_posY_of_mem env _ h h1 h2

theorem zoom_posX_of_mem (env : Env) (delta : ℚ) (s : ImageViewer) (hs : 0 < s.scale)
    (h : env.width < imageDisplayWidth env (zoom env delta s).scale)
    (h1 : env.width - imageDisplayWidth env (zoom env delta s).scale ≤
      env.width / 2 - (env.width / 2 - s.posX) / s.scale * (zoom env delta s).scale)
    (h2 : env.width / 2 - (env.width / 2 - s.posX) / s.scale * (zoom env delta s).scale ≤ 0) :
    (zoom env delta s).posX =
      env.width / 2 - (env.width / 2 - s.posX) / s.scale * (zoom env delta s).scale := by
  by_cases hc : (zoom env delta s).scale = s.scale
  · rw [hc, zoom_eq_of_scale_eq env delta s hc, div_mul_cancel₀ _ hs.ne']
    ring
  · rw [zoom_scale] at hc h h1 h2 ⊢
    unfold zoom
    simp only
    rw [if_pos hc]
    exact constrainPosition_posX_of_mem env _ h h1 h2

theorem zoom_posY_of_mem (env : Env) (delta : ℚ) (s : ImageViewer) (hs : 0 < s.scale)
    (h : env.height < imageDisplayHeight env (zoom env delta s).scale)
    (h1 : env.height - imageDisplayHeight env (zoom env delta s).scale ≤
      env.height / 2 - (env.height / 2 - s.posY) / s.scale * (zoom env delta s).scale)
    (h2 : env.height / 2 - (env.height / 2 - s.posY) / s.scale * (zoom env delta s).scale ≤ 0) :
    (zoom env delta s).posY =
      env.height / 2 - (env.height / 2 - s.posY) / s.scale * (zoom env delta s).scale := by
  by_cases hc : (zoom env delta s).scale = s.scale
  · rw [hc, zoom_eq_of_scale_eq env delta s hc, div_mul_cancel₀ _ hs.ne']
    ring
  · rw [zoom_scale] at hc h h1 h2 ⊢
    unfold zoom
    simp only
    rw [if_pos hc]
    exact constrainPosition_posY_of_mem env _ h h1 h2

/-- C3 as stated fails: in a 1000 by 500 wide viewport showing a square image at scale
1 and offset (0, 0), a wheel step down at the corner (0, 0) shrinks the image to 950
wide, which is then centred at offset 25, so the image coordinate under the pointer
moves from 0 to -500/19; `zoom(-0.1)` clamps the vertical offset 25 back to 0, so the
image coordinate under the viewport centre moves from 250 to 2500/9. -/
theorem zoom_anchor_moves :
    0 < (construct samplePage).scale ∧
    ((0 : ℚ) - squareEnv.left - (handleWheel squareEnv ⟨0, 0, 1⟩ (construct samplePage)).posX) /
        (handleWheel squareEnv ⟨0, 0, 1⟩ (construct samplePage)).scale ≠
      ((0 : ℚ) - squareEnv.left - (construct samplePage).posX) / (construct samplePage).scale ∧
    (squareEnv.height / 2 - (zoom squareEnv (-(1 / 10)) (construct samplePage)).posY) /
        (zoom squareEnv (-(1 / 10)) (construct samplePage)).scale ≠
      (squareEnv.height / 2 - (construct samplePage).posY) / (construct samplePage).scale := by
  refine ⟨by norm_num [construct], ?_, ?_⟩
  · norm_num [handleWheel, updateTransform, constrainPosition, construct, imageDisplayWidth,
      imageDisplayHeight, isMobile, aspectRatio, squareEnv, minScale, defaultScale, maxScale]
  · norm_num [zoom, updateTransform, constrainPosition, construct, imageDisplayWidth,
      imageDisplayHeight, isMobile, aspectRatio, squareEnv, minScale, defaultScale, maxScale]

/-- C3, amended. For every viewer state with scale > 0 and every anchor (the pointer
for `handleWheel`, the viewport centre for `zoom`), the image coordinate under the
anchor, `(anchor - offset) / scale`, is the same before and after the operation on an
axis exactly when `constrainPosition` leaves the offset the zoom computes,
`anchor - imageCoord * newScale`, in place; it does so whenever the displayed image is
larger than the viewport on that axis and that offset lies in
`[viewport - display, 0]`. -/
theorem zoom_anchor_preserved (env : Env) (s : ImageViewer) (hs : 0 < s.scale)
    (e : WheelEvent) (delta : ℚ) :
    (((e.clientX - env.left - (handleWheel env e s).posX) / (handleWheel env e s).scale =
        (e.clientX - env.left - s.posX) / s.scale ↔
      (handleWheel env e s).posX =
        (e.clientX - env.left) -
          (e.clientX - env.left - s.posX) / s.scale * (handleWheel env e s).scale) ∧
     (env.width < imageDisplayWidth env (handleWheel env e s).scale →
      env.width - imageDisplayWidth env (handleWheel env e s).scale ≤
        (e.clientX - env.left) -
          (e.clientX - env.left - s.posX) / s.scale * (handleWheel env e s).scale →
      (e.clientX - env.left) -
          (e.clientX - env.left - s.posX) / s.scale * (handleWheel env e s).scale ≤ 0 →
      (e.clientX - env.left - (handleWheel env e s).posX) / (handleWheel env e s).scale =
        (e.clientX - env.left - s.posX) / s.scale)) ∧
    (((e.clientY - env.top - (handleWheel env e s).posY) / (handleWheel env e s).scale =
        (e.clientY - env.top - s.posY) / s.scale ↔
      (handleWheel env e s).posY =
        (e.clientY - env.top) -
          (e.clientY - env.top - s.posY) / s.scale * (handleWheel env e s).scale) ∧
     (env.height < imageDisplayHeight env (handleWheel env e s).scale →
      env.height - imageDisplayHeight env (handleWheel env e s).scale ≤
        (e.clientY - env.top) -
          (e.clientY - env.top - s.posY) / s.scale * (handleWheel env e s).scale →
      (e.clientY - env.top) -
          (e.clientY - env.top - s.posY) / s.scale * (handleWheel env e s).scale ≤ 0 →
      (e.clientY - env.top - (handleWheel env e s).posY) / (handleWheel env e s).scale =
        (e.clientY - env.top - s.posY) / s.scale)) ∧
    (((env.width / 2 - (zoom env delta s).posX) / (zoom env delta s).scale =
        (env.width / 2 - s.posX) / s.scale ↔
      (zoom env delta s).posX =
        env.width / 2 - (env.width / 2 - s.posX) / s.scale * (zoom env delta s).scale) ∧
     (env.width < imageDisplayWidth env (zoom env delta s).scale →
      env.width - imageDisplayWidth env (zoom env delta s).scale ≤
        env.width / 2 - (env.width / 2 - s.posX) / s.scale * (zoom env delta s).scale →
      env.width / 2 - (env.width / 2 - s.posX) / s.scale * (zoom env delta s).scale ≤ 0 →
      (env.width / 2 - (zoom env delta s).posX) / (zoom env delta s).scale =
        (env.width / 2 - s.posX) / s.scale)) ∧
    (((env.height / 2 - (zoom env delta s).posY) / (zoom env delta s).scale =
        (env.height / 2 - s.posY) / s.scale ↔
      (zoom env delta s).posY =
        env.height / 2 - (env.height / 2 - s.posY) / s.scale * (zoom env delta s).scale) ∧
     (env.height < imageDisplayHeight env (zoom env delta s).scale →
      env.height - imageDisplayHeight env (zoom env delta s).scale ≤
        env.height / 2 - (env.height / 2 - s.posY) / s.scale * (zoom env delta s).scale →
      env.height / 2 - (env.height / 2 - s.posY) / s.scale * (zoom env delta s).scale ≤ 0 →
      (env.height / 2 - (zoom env delta s).posY) / (zoom env delta s).scale =
        (env.height / 2 - s.posY) / s.scale)) := by
  have hw := handleWheel_scale_pos env e s
  have hz := zoom_scale_pos env delta s
  refine ⟨⟨anchor_iff _ _ _ _ hw, fun h h1 h2 => ?_⟩, ⟨anchor_iff _ _ _ _ hw, fun h h1 h2 => ?_⟩,
    ⟨anchor_iff _ _ _ _ hz, fun h h1 h2 => ?_⟩, ⟨anchor_iff _ _ _ _ hz, fun h h1 h2 => ?_⟩⟩
  · exact (anchor_iff _ _ _ _ hw).mpr (handleWheel_posX_of_mem env e s hs h h1 h2)
  · exact (anchor_iff _ _ _ _ hw).mpr (handleWheel_posY_of_mem env e s hs h h1 h2)
  · exact (anchor_iff _ _ _ _ hz).mpr (zoom_posX_of_mem env delta s hs h h1 h2)
  · exact (anchor_iff _ _ _ _ hz).mpr (zoom_posY_of_mem env delta s hs h h1 h2)

/-- C3, instance: a wheel step up at the pointer (500, 0) over the constructed viewer
(scale 1, offset 0) in a 1000 wide viewport gives a 1050 wide image at offset -25, and
the image coordinate under the pointer stays 500. -/
theorem zoom_anchor_preserved_witness :
    0 < (construct samplePage).scale ∧
    ((500 : ℚ) - squareEnv.left -
        (handleWheel squareEnv ⟨500, 0, -1⟩ (construct samplePage)).posX) /
        (handleWheel squareEnv ⟨500, 0, -1⟩ (construct samplePage)).scale =
      ((500 : ℚ) - squareEnv.left - (construct samplePage).posX) /
        (construct samplePage).scale := by
  have hk : (handleWheel squareEnv ⟨500, 0, -1⟩ (construct samplePage)).scale = 21 / 20 := by
    rw [handleWheel_scale]
    norm_num [construct, minScale, defaultScale, maxScale]
  refine ⟨by norm_num [construct], ?_⟩
  refine (zoom_anchor_preserved squareEnv (construct samplePage) (by norm_num [construct])
    ⟨500, 0, -1⟩ 0).1.2 ?_ ?_ ?_
  · rw [hk]; norm_num [imageDisplayWidth, isMobile, squareEnv]
  · rw [hk]; norm_num [imageDisplayWidth, isMobile, squareEnv, construct]
  · rw [hk]; norm_num [squareEnv, construct]

/-! ## C7: the drag threshold and marker activation -/

theorem drag_dragging (env : Env) (e : MouseEvent) (s : ImageViewer)
    (h : s.isDragging = true) :
    (drag env e s).isDragging = true ∧
    (drag env e s).dragStartX = s.dragStartX ∧
    (drag env e s).dragStartY = s.dragStartY ∧
    ((drag env e s).hasMoved = true ↔
      s.hasMoved = true ∨
        (|e.clientX - s.dragStartX| > 5 ∨ |e.clientY - s.dragStartY| > 5)) := by
  unfold drag
  simp only [h, Bool.not_true, Bool.false_eq_true, if_false]
  refine ⟨rfl, rfl, rfl, ?_⟩
  show (if _ then true else s.hasMoved) = true ↔ _
  split_ifs with hc
  · simp [hc]
  · simp [hc]

theorem foldl_drag_hasMoved (moves : List (Env × MouseEvent)) (s : ImageViewer)
    (h : s.isDragging = true) :
    (moves.foldl (fun st m => drag m.1 m.2 st) s).hasMoved = true ↔
      s.hasMoved = true ∨
        ∃ m ∈ moves, |m.2.clientX - s.dragStartX| > 5 ∨ |m.2.clientY - s.dragStartY| > 5 := by
  induction moves generalizing s with
  | nil => simp
  | cons m rest ih =>
    obtain ⟨h1, h2, h3, h4⟩ := drag_dragging m.1 m.2 s h
    rw [List.foldl_cons, ih _ h1, h2, h3, h4]
    simp only [List.mem_cons, exists_eq_or_imp]
    exact or_assoc

theorem handleTouchMove_dragging (env : Env) (e : TouchEvent) (s : ImageViewer)
    (h : s.isDragging = true) :
    (handleTouchMove env e s).isDragging = true ∧
    (handleTouchMove env e s).dragStartX = s.dragStartX ∧
    (handleTouchMove env e s).dragStartY = s.dragStartY ∧
    ((handleTouchMove env e s).hasMoved = true ↔
      s.hasMoved = true ∨
        ∃ p, e.touches = [p] ∧
          (|p.clientX - s.dragStartX| > 5 ∨ |p.clientY - s.dragStartY| > 5)) := by
  obtain ⟨touches⟩ := e
  match touches with
  | [] => simp [handleTouchMove, h]
  | _ :: _ :: _ => simp [handleTouchMove, h]
  | [p] =>
    unfold handleTouchMove
    simp only [h, Bool.not_true, Bool.false_eq_true, List.length_singleton, ne_eq,
      not_true_eq_false, or_self, if_false]
    refine ⟨rfl, rfl, rfl, ?_⟩
    show (if _ then true else s.hasMoved) = true ↔ _
    split_ifs with hc
    · simp [hc]
    · simp [hc]

theorem foldl_handleTouchMove_hasMoved (moves : List (Env × TouchEvent)) (s : ImageViewer)
    (h : s.isDragging = true) :
    (moves.foldl (fun st m => handleTouchMove m.1 m.2 st) s).hasMoved = true ↔
      s.hasMoved = true ∨
        ∃ m ∈ moves, ∃ p, m.2.touches = [p] ∧
          (|p.clientX - s.dragStartX| > 5 ∨ |p.clientY - s.dragStartY| > 5) := by
  induction moves generalizing s with
  | nil => simp
  | cons m rest ih =>
    obtain ⟨h1, h2, h3, h4⟩ := handleTouchMove_dragging m.1 m.2 s h
    rw [List.foldl_cons, ih _ h1, h2, h3, h4]
    simp only [List.mem_cons, exists_eq_or_imp]
    exact or_assoc

/-- C7. After `startDrag` at `(x0, y0)` (or `handleTouchStart` with the single touch
`(x0, y0)`) followed by any sequence of move events, `hasMoved` is true iff some move
event was at a point `(x, y)` with `|x - x0| > 5` or `|y - y0| > 5` (for touch moves: a
move with exactly one touch, at that point).  A marker click or tap observed while
`hasMoved` is true leaves the whole state unchanged; one observed while `hasMoved` is
false runs `handleMarkerClick`. -/
theorem drag_threshold (s : ImageViewer) (x0 y0 : ℚ) :
    (∀ moves : List (Env × MouseEvent),
      (moves.foldl (fun st m => drag m.1 m.2 st) (startDrag ⟨x0, y0⟩ s)).hasMoved = true ↔
        ∃ m ∈ moves, |m.2.clientX - x0| > 5 ∨ |m.2.clientY - y0| > 5) ∧
    (∀ moves : List (Env × TouchEvent),
      (moves.foldl (fun st m => handleTouchMove m.1 m.2 st)
          (handleTouchStart ⟨[⟨x0, y0⟩]⟩ s)).hasMoved = true ↔
        ∃ m ∈ moves, ∃ p, m.2.touches = [p] ∧ (|p.clientX - x0| > 5 ∨ |p.clientY - y0| > 5)) ∧
    (∀ marker r, s.hasMoved = true → markerClick marker r s = ⟨s, false⟩) ∧
    (∀ marker r, s.hasMoved = false →
      markerClick marker r s = handleMarkerClick marker r s) := by
  refine ⟨?_, ?_, ?_, ?_⟩
  · intro moves
    rw [foldl_drag_hasMoved moves (startDrag ⟨x0, y0⟩ s) rfl]
    simp [startDrag]
  · intro moves
    rw [foldl_handleTouchMove_hasMoved moves (handleTouchStart ⟨[⟨x0, y0⟩]⟩ s) rfl]
    simp [handleTouchStart]
  · intro marker r h
    simp [markerClick, h]
  · intro marker r h
    simp [markerClick, h]

/-- C7, instance: a drag from (10, 10) through (12, 13) to (30, 10) has moved, and the
marker click that follows changes nothing. -/
theorem drag_threshold_witness :
    (drag flatEnv ⟨30, 10⟩ (drag flatEnv ⟨12, 13⟩
      (startDrag ⟨10, 10⟩ (construct samplePage)))).hasMoved = true ∧
    markerClick markerA (1 / 2)
        (drag flatEnv ⟨30, 10⟩ (drag flatEnv ⟨12, 13⟩
          (startDrag ⟨10, 10⟩ (construct samplePage)))) =
      ⟨drag flatEnv ⟨30, 10⟩ (drag flatEnv ⟨12, 13⟩
        (startDrag ⟨10, 10⟩ (construct samplePage))), false⟩ := by
  have h : (drag flatEnv ⟨30, 10⟩ (drag flatEnv ⟨12, 13⟩
      (startDrag ⟨10, 10⟩ (construct samplePage)))).hasMoved = true :=
    ((drag_threshold (construct samplePage) 10 10).1
      [(flatEnv, ⟨12, 13⟩), (flatEnv, ⟨30, 10⟩)]).mpr
      ⟨(flatEnv, ⟨30, 10⟩), by simp, Or.inl (by norm_num)⟩
  exact ⟨h, (drag_threshold _ 10 10).2.2.1 markerA (1 / 2) h⟩

/-! ## Track player: the media primitives -/

theorem modifyAudio_length (h : Nat) (f : Audio → Audio) (s : ImageViewer) :
    (modifyAudio h f s).audios.length = s.audios.length := by
  unfold modifyAudio
  cases hget : s.audios[h]? <;> simp

theorem modifyAudio_getElem? (h : Nat) (f : Audio → Audio) (s : ImageViewer) (k : Nat) :
    (modifyAudio h f s).audios[k]? =
      if k = h then (s.audios[k]?).map f else s.audios[k]? := by
  unfold modifyAudio
  cases hget : s.audios[h]? with
  | none =>
    by_cases hk : k = h
    · subst hk; simp [hget]
    · simp [hk]
  | some a =>
    by_cases hk : k = h
    · subst hk
      have hlt : k < s.audios.length := (List.getElem?_eq_some.mp hget).1
      simp [hget, hlt]
    · simp [hk, List.getElem?_set_ne (Ne.symm hk)]

theorem isPlaying_modifyAudio (h : Nat) (f : Audio → Audio) (s : ImageViewer) (k : Nat) :
    IsPlaying (modifyAudio h f s) k ↔
      if k = h then ∃ a, s.audios[k]? = some a ∧ (f a).paused = false else IsPlaying s k := by
  unfold IsPlaying
  rw [modifyAudio_getElem?]
  split_ifs with hk
  · cases s.audios[k]? <;> simp
  · rfl

theorem isPlaying_audioPause (h : Nat) (s : ImageViewer) (k : Nat) :
    IsPlaying (audioPause h s) k ↔ IsPlaying s k ∧ k ≠ h := by
  unfold audioPause
  rw [isPlaying_modifyAudio]
  split_ifs with hk
  · simp [hk]
  · simp [hk]

theorem isPlaying_audioPlay (h : Nat) (s : ImageViewer) (k : Nat) :
    IsPlaying (audioPlay h s) k ↔ IsPlaying s k ∨ (k = h ∧ h < s.audios.length) := by
  unfold audioPlay
  rw [isPlaying_modifyAudio]
  split_ifs with hk
  · subst hk
    constructor
    · rintro ⟨a, ha, -⟩
      exact Or.inr ⟨rfl, (List.getElem?_eq_some.mp ha).1⟩
    · rintro (⟨a, ha, -⟩ | ⟨-, hlt⟩)
      · exact ⟨a, ha, rfl⟩
      · exact ⟨s.audios[k], List.getElem?_eq_getElem hlt, rfl⟩
  · simp [hk]

theorem isPlaying_audioSetCurrentTime (h : Nat) (t : ℚ) (s : ImageViewer) (k : Nat) :
    IsPlaying (audioSetCurrentTime h t s) k ↔ IsPlaying s k := by
  unfold audioSetCurrentTime
  rw [isPlaying_modifyAudio]
  split_ifs with hk
  · rfl
  · rfl

theorem isPlaying_addEndedListener (h index : Nat) (s : ImageViewer) (k : Nat) :
    IsPlaying (addEndedListener h index s) k ↔ IsPlaying s k := by
  unfold addEndedListener
  rw [isPlaying_modifyAudio]
  split_ifs with hk
  · rfl
  · rfl

theorem isPlaying_playbackAdvance (h : Nat) (dt : ℚ) (s : ImageViewer) (k : Nat) :
    IsPlaying (playbackAdvance h dt s) k ↔ IsPlaying s k := by
  unfold playbackAdvance
  rw [isPlaying_modifyAudio]
  split_ifs with hk
  · unfold IsPlaying
    constructor
    · rintro ⟨a, ha, hp⟩
      refine ⟨a, ha, ?_⟩
      by_cases hq : a.paused = true
      · simp [hq] at hp
      · simpa using hq
    · rintro ⟨a, ha, hp⟩
      exact ⟨a, ha, by simp [hp]⟩
  · rfl

theorem isPlaying_of_audios_eq {s t : ImageViewer} (h : t.audios = s.audios) (k : Nat) :
    IsPlaying t k ↔ IsPlaying s k := by
  unfold IsPlaying
  rw [h]

theorem isPlaying_lt {s : ImageViewer} {k : Nat} (h : IsPlaying s k) : k < s.audios.length := by
  obtain ⟨a, ha, -⟩ := h
  exact (List.getElem?_eq_some.mp ha).1

theorem isPlaying_newAudio (src : String) (s : ImageViewer) (k : Nat) :
    IsPlaying (newAudio src s) k ↔ IsPlaying s k := by
  unfold IsPlaying newAudio
  simp only
  rcases Nat.lt_trichotomy k s.audios.length with hk | hk | hk
  · rw [List.getElem?_append_left hk]
  · subst hk
    rw [List.getElem?_concat_length, List.getElem?_eq_none (le_refl _)]
    simp
  · rw [List.getElem?_eq_none (by simp; omega), List.getElem?_eq_none (by omega)]

/-! ## Track player: fields left alone by `updateTrackUI` -/

theorem updateTrackUI_audios (index : Nat) (p : Bool) (s : ImageViewer) :
    (updateTrackUI index p s).audios = s.audios := by
  by_cases hi : index = 0 <;> simp [updateTrackUI, hi]

theorem updateTrackUI_currentAudio (index : Nat) (p : Bool) (s : ImageViewer) :
    (updateTrackUI index p s).currentAudio = s.currentAudio := by
  by_cases hi : index = 0 <;> simp [updateTrackUI, hi]

theorem updateTrackUI_currentMarker (index : Nat) (p : Bool) (s : ImageViewer) :
    (updateTrackUI index p s).currentMarker = s.currentMarker := by
  by_cases hi : index = 0 <;> simp [updateTrackUI, hi]

theorem updateTrackUI_currentTrackIndex (index : Nat) (p : Bool) (s : ImageViewer) :
    (updateTrackUI index p s).currentTrackIndex = s.currentTrackIndex := by
  by_cases hi : index = 0 <;> simp [updateTrackUI, hi]

theorem updateTrackUI_tracks (index : Nat) (p : Bool) (s : ImageViewer) :
    (updateTrackUI index p s).tracks = s.tracks := by
  by_cases hi : index = 0 <;> simp [updateTrackUI, hi]

theorem updateTrackUI_icons (index : Nat) (p : Bool) (s : ImageViewer) :
    (updateTrackUI index p s).track1Row.iconSrc =
        (if index = 0 ∧ p = true then pauseIcon else playIcon) ∧
    (updateTrackUI index p s).track2Row.iconSrc =
        (if index ≠ 0 ∧ p = true then pauseIcon else playIcon) := by
  unfold updateTrackUI
  by_cases hi : index = 0 <;> cases p <;> simp [hi]

theorem playIcon_ne_pauseIcon : playIcon ≠ pauseIcon := by decide

theorem atMostOnePause_updateTrackUI (index : Nat) (p : Bool) (s : ImageViewer) :
    AtMostOnePause (updateTrackUI index p s) := by
  unfold AtMostOnePause
  obtain ⟨h1, h2⟩ := updateTrackUI_icons index p s
  rw [h1, h2]
  by_cases hi : index = 0 <;> simp [hi, playIcon_ne_pauseIcon]

/-! ## Track player: what `playTrack` does in each case -/

theorem playTrack_noop (index : Nat) (s : ImageViewer)
    (h : s.tracks = none ∨ ∃ tracks, s.tracks = some tracks ∧ tracks.length ≤ index) :
    playTrack index s = ⟨s, false⟩ := by
  unfold playTrack
  rcases h with h | ⟨tracks, h, hl⟩
  · simp [h]
  · simp [h, List.getElem?_eq_none hl]

theorem playTrack_toggle (index : Nat) (s : ImageViewer) {tracks : List Track} {track : Track}
    {h : Nat} {a : Audio} (ht : s.tracks = some tracks) (hi : tracks[index]? = some track)
    (hc : s.currentAudio = some h) (ha : s.audios[h]? = some a)
    (hx : s.currentTrackIndex = index) :
    (playTrack index s).state.audios = s.audios.set h { a with paused := !a.paused } ∧
    (playTrack index s).state.currentAudio = some h ∧
    (playTrack index s).state.currentTrackIndex = index ∧
    (playTrack index s).state.tracks = s.tracks ∧
    (playTrack index s).state.currentMarker = s.currentMarker ∧
    (playTrack index s).threw = s.currentMarker.isNone := by
  unfold playTrack
  simp only [ht, hi, hc, hx, if_true]
  have hp : audioPaused h s = a.paused := by simp [audioPaused, ha]
  rw [hp]
  cases hpa : a.paused <;> cases hm : s.currentMarker <;>
    simp [audioPlay, audioPause, modifyAudio, ha, hm, hc, hx, ht, hpa, classAdd, classRemove,
      updateTrackUI_audios, updateTrackUI_currentAudio, updateTrackUI_currentTrackIndex,
      updateTrackUI_tracks, updateTrackUI_currentMarker]

theorem playTrack_switch (index : Nat) (s : ImageViewer) {tracks : List Track} {track : Track}
    {h : Nat} {a : Audio} (ht : s.tracks = some tracks) (hi : tracks[index]? = some track)
    (hc : s.currentAudio = some h) (ha : s.audios[h]? = some a)
    (hx : s.currentTrackIndex ≠ index) :
    (playTrack index s).state.audios =
      s.audios.set h { a with paused := true, currentTime := 0 } ++
        [{ src := track.src, paused := false, currentTime := 0,
           onended := s.currentMarker.map (fun _ => index) }] ∧
    (playTrack index s).state.currentAudio = some s.audios.length ∧
    (playTrack index s).state.currentTrackIndex = index ∧
    (playTrack index s).state.tracks = s.tracks ∧
    (playTrack index s).state.currentMarker = s.currentMarker ∧
    (playTrack index s).threw = s.currentMarker.isNone := by
  have hlt : h < s.audios.length := (List.getElem?_eq_some.mp ha).1
  unfold playTrack
  simp only [ht, hi, hc, hx, if_false]
  cases hm : s.currentMarker <;>
    simp [audioPlay, audioPause, audioSetCurrentTime, addEndedListener, newAudio, modifyAudio,
      ha, hm, hc, hx, ht, hlt, classAdd, updateTrackUI_audios, updateTrackUI_currentAudio,
      updateTrackUI_currentTrackIndex, updateTrackUI_tracks, updateTrackUI_currentMarker]

theorem playTrack_fresh (index : Nat) (s : ImageViewer) {tracks : List Track} {track : Track}
    (ht : s.tracks = some tracks) (hi : tracks[index]? = some track)
    (hc : s.currentAudio = none) :
    (playTrack index s).state.audios =
      s.audios ++
        [{ src := track.src, paused := false, currentTime := 0,
           onended := s.currentMarker.map (fun _ => index) }] ∧
    (playTrack index s).state.currentAudio = some s.audios.length ∧
    (playTrack index s).state.currentTrackIndex = index ∧
    (playTrack index s).state.tracks = s.tracks ∧
    (playTrack index s).state.currentMarker = s.currentMarker ∧
    (playTrack index s).threw = s.currentMarker.isNone := by
  unfold playTrack
  simp only [ht, hi, hc]
  cases hm : s.currentMarker <;>
    simp [audioPlay, addEndedListener, newAudio, modifyAudio,
      hm, hc, ht, classAdd, updateTrackUI_audios, updateTrackUI_currentAudio,
      updateTrackUI_currentTrackIndex, updateTrackUI_tracks, updateTrackUI_currentMarker]

/-! ## Track player: `stopAudio`, the `ended` listener and marker activation -/

theorem stopAudio_audios (s : ImageViewer) :
    (stopAudio s).audios =
      match s.currentAudio with
      | some h =>
        (match s.audios[h]? with
          | some a => s.audios.set h { a with paused := true, currentTime := 0 }
          | none => s.audios)
      | none => s.audios := by
  unfold stopAudio
  cases hc : s.currentAudio with
  | none => cases hm : s.currentMarker <;> simp [hm, classRemove]
  | some h =>
    cases ha : s.audios[h]? with
    | none =>
      cases hm : s.currentMarker <;>
        simp [hm, classRemove, audioPause, audioSetCurrentTime, modifyAudio, ha]
    | some a =>
      have hlt : h < s.audios.length := (List.getElem?_eq_some.mp ha).1
      cases hm : s.currentMarker <;>
        simp [hm, classRemove, audioPause, audioSetCurrentTime, modifyAudio, ha, hlt]

theorem stopAudio_length (s : ImageViewer) : (stopAudio s).audios.length = s.audios.length := by
  rw [stopAudio_audios]
  cases s.currentAudio with
  | none => rfl
  | some h => cases ha : s.audios[h]? <;> simp [ha]

theorem isPlaying_stopAudio (s : ImageViewer) (k : Nat) :
    IsPlaying (stopAudio s) k ↔ IsPlaying s k ∧ s.currentAudio ≠ some k := by
  unfold IsPlaying
  rw [stopAudio_audios]
  cases hc : s.currentAudio with
  | none => simp
  | some h =>
    cases ha : s.audios[h]? with
    | none =>
      simp only [ha, ne_eq, Option.some.injEq]
      constructor
      · rintro ⟨a, hk, hp⟩
        refine ⟨⟨a, hk, hp⟩, ?_⟩
        rintro rfl
        rw [ha] at hk
        exact Option.noConfusion hk
      · rintro ⟨hk, -⟩
        exact hk
    | some a =>
      simp only [ha, ne_eq, Option.some.injEq]
      by_cases hk : h = k
      · subst hk
        have hlt : h < s.audios.length := (List.getElem?_eq_some.mp ha).1
        simp [hlt]
      · rw [List.getElem?_set_ne hk]
        simp [hk]

theorem stopAudio_fields (s : ImageViewer) :
    (stopAudio s).currentAudio = none ∧ (stopAudio s).currentMarker = none ∧
    (stopAudio s).tracks = none ∧
    (stopAudio s).track1Row.iconSrc = playIcon ∧ (stopAudio s).track2Row.iconSrc = playIcon :=
  ⟨rfl, rfl, rfl, rfl, rfl⟩

/-- The track list `handleMarkerClick` builds for a marker with source `audioSrc`. -/
theorem handleMarkerClick_eq (marker : Marker) (r : ℚ) (s : ImageViewer) {audioSrc : String}
    (h : marker.audio = some audioSrc) (hne : audioSrc ≠ "") :
    handleMarkerClick marker r s =
      if truthy marker.audio2 then
        playTrack ⌊r * 2⌋₊
          (showDualTracks (orElse marker.name (marker.title.getD marker.alt))
            (orElse marker.name2 "트랙 2")
            { stopAudio s with
              currentMarker := some marker,
              tracks := some
                [{ name := orElse marker.name (marker.title.getD marker.alt), src := audioSrc },
                 { name := orElse marker.name2 "트랙 2", src := marker.audio2.getD "" }] })
      else
        playTrack 0
          (showSingleTrack (orElse marker.name (marker.title.getD marker.alt))
            { stopAudio s with
              currentMarker := some marker,
              tracks := some
                [{ name := orElse marker.name (marker.title.getD marker.alt),
                   src := audioSrc }] }) := by
  unfold handleMarkerClick
  simp only [h, hne, if_false]

theorem handleMarkerClick_noop (marker : Marker) (r : ℚ) (s : ImageViewer)
    (h : truthy marker.audio = false) : handleMarkerClick marker r s = ⟨s, false⟩ := by
  unfold handleMarkerClick
  cases ha : marker.audio with
  | none => rfl
  | some src =>
    have : src = "" := by simpa [truthy, ha] using h
    simp [this]

/-! ## Track player: the invariants -/

theorem singlePlayback_linked_playTrack (index : Nat) (s : ImageViewer)
    (hsp : SinglePlayback s) (hl : Linked s) :
    SinglePlayback (playTrack index s).state ∧ Linked (playTrack index s).state ∧
      (playTrack index s).threw = false := by
  cases ht : s.tracks with
  | none => rw [playTrack_noop index s (Or.inl ht)]; exact ⟨hsp, hl, rfl⟩
  | some tracks =>
    cases hi : tracks[index]? with
    | none =>
      rw [playTrack_noop index s (Or.inr ⟨tracks, ht, List.getElem?_eq_none_iff.mp hi⟩)]
      exact ⟨hsp, hl, rfl⟩
    | some track =>
      have hidx : index < tracks.length := (List.getElem?_eq_some.mp hi).1
      obtain ⟨m, hm⟩ := Option.ne_none_iff_exists'.mp (hl.1 (by simp [ht]))
      cases hc : s.currentAudio with
      | none =>
        obtain ⟨e1, e2, e3, e4, e5, e6⟩ := playTrack_fresh index s ht hi hc
        refine ⟨?_, ⟨?_, ?_⟩, ?_⟩
        · rintro k ⟨a, hk, hp⟩
          rw [e2]
          rw [e1] at hk
          rcases Nat.lt_or_ge k s.audios.length with hlt | hge
          · rw [List.getElem?_append_left hlt] at hk
            have := hsp k ⟨a, hk, hp⟩
            rw [hc] at this
            exact Option.noConfusion this
          · have hlen := (List.getElem?_eq_some.mp hk).1
            simp at hlen
            congr 1
            omega
        · intro _
          rw [e5, hm]
          exact Option.some_ne_none m
        · intro h hh
          rw [e2] at hh
          cases hh
          rw [e1, e3, e4]
          exact ⟨by simp, tracks, ht, hidx⟩
        · rw [e6, hm]; rfl
      | some h =>
        obtain ⟨hlt, -⟩ := hl.2 h hc
        have ha : s.audios[h]? = some s.audios[h] := List.getElem?_eq_getElem hlt
        by_cases hx : s.currentTrackIndex = index
        · obtain ⟨e1, e2, e3, e4, e5, e6⟩ := playTrack_toggle index s ht hi hc ha hx
          refine ⟨?_, ⟨?_, ?_⟩, ?_⟩
          · rintro k ⟨a, hk, hp⟩
            rw [e2]
            rw [e1] at hk
            by_cases hkh : h = k
            · rw [hkh]
            · rw [List.getElem?_set_ne hkh] at hk
              rw [← hc]
              exact hsp k ⟨a, hk, hp⟩
          · intro _
            rw [e5, hm]
            exact Option.some_ne_none m
          · intro h1 hh
            rw [e2] at hh
            cases hh
            rw [e1, e3, e4]
            exact ⟨by simpa using hlt, tracks, ht, hidx⟩
          · rw [e6, hm]; rfl
        · obtain ⟨e1, e2, e3, e4, e5, e6⟩ := playTrack_switch index s ht hi hc ha hx
          refine ⟨?_, ⟨?_, ?_⟩, ?_⟩
          · rintro k ⟨a, hk, hp⟩
            rw [e2]
            rw [e1] at hk
            rcases Nat.lt_or_ge k s.audios.length with hklt | hge
            · rw [List.getElem?_append_left (by simpa using hklt)] at hk
              by_cases hkh : h = k
              · subst hkh
                rw [List.getElem?_set_self hlt] at hk
                cases hk
                simp at hp
              · rw [List.getElem?_set_ne hkh] at hk
                have := hsp k ⟨a, hk, hp⟩
                rw [hc] at this
                exact absurd (Option.some.inj this) hkh
            · have hlen := (List.getElem?_eq_some.mp hk).1
              simp at hlen
              congr 1
              omega
          · intro _
            rw [e5, hm]
            exact Option.some_ne_none m
          · intro h1 hh
            rw [e2] at hh
            cases hh
            rw [e1, e3, e4]
            exact ⟨by simp, tracks, ht, hidx⟩
          · rw [e6, hm]; rfl

theorem singlePlayback_linked_stopAudio (s : ImageViewer) (hsp : SinglePlayback s) :
    SinglePlayback (stopAudio s) ∧ Linked (stopAudio s) := by
  refine ⟨?_, ⟨?_, ?_⟩⟩
  · intro k hk
    obtain ⟨h1, h2⟩ := (isPlaying_stopAudio s k).mp hk
    exact absurd (hsp k h1) h2
  · intro h
    exact absurd rfl h
  · intro h hh
    exact Option.noConfusion hh

theorem singlePlayback_linked_armed (s t : ImageViewer) (marker : Marker)
    (tracks : List Track) (hsp : SinglePlayback s)
    (ha : t.audios = (stopAudio s).audios) (hc : t.currentAudio = none)
    (hm : t.currentMarker = some marker) (_ht : t.tracks = some tracks) :
    SinglePlayback t ∧ Linked t := by
  refine ⟨?_, ⟨?_, ?_⟩⟩
  · intro k hk
    obtain ⟨h1, h2⟩ := (isPlaying_stopAudio s k).mp ((isPlaying_of_audios_eq ha k).mp hk)
    exact absurd (hsp k h1) h2
  · intro _
    rw [hm]
    exact Option.some_ne_none marker
  · intro h hh
    rw [hc] at hh
    exact Option.noConfusion hh

theorem singlePlayback_linked_handleMarkerClick (marker : Marker) (r : ℚ) (s : ImageViewer)
    (hsp : SinglePlayback s) (hl : Linked s) :
    SinglePlayback (handleMarkerClick marker r s).state ∧
      Linked (handleMarkerClick marker r s).state ∧
      (handleMarkerClick marker r s).threw = false := by
  cases ha : marker.audio with
  | none =>
    rw [handleMarkerClick_noop marker r s (by simp [truthy, ha])]
    exact ⟨hsp, hl, rfl⟩
  | some audioSrc =>
    by_cases hne : audioSrc = ""
    · rw [handleMarkerClick_noop marker r s (by simp [truthy, ha, hne])]
      exact ⟨hsp, hl, rfl⟩
    · rw [handleMarkerClick_eq marker r s ha hne]
      split_ifs
      · obtain ⟨h1, h2⟩ := singlePlayback_linked_armed s
          (showDualTracks (orElse marker.name (marker.title.getD marker.alt))
            (orElse marker.name2 "트랙 2")
            { stopAudio s with
              currentMarker := some marker,
              tracks := some
                [{ name := orElse marker.name (marker.title.getD marker.alt), src := audioSrc },
                 { name := orElse marker.name2 "트랙 2", src := marker.audio2.getD "" }] })
          marker _ hsp rfl rfl rfl rfl
        exact singlePlayback_linked_playTrack _ _ h1 h2
      · obtain ⟨h1, h2⟩ := singlePlayback_linked_armed s
          (showSingleTrack (orElse marker.name (marker.title.getD marker.alt))
            { stopAudio s with
              currentMarker := some marker,
              tracks := some
                [{ name := orElse marker.name (marker.title.getD marker.alt),
                   src := audioSrc }] })
          marker _ hsp rfl rfl rfl rfl
        exact singlePlayback_linked_playTrack _ _ h1 h2

theorem trackEnded_eq (h : Nat) (s : ImageViewer) {a : Audio} {m : Marker}
    (ha : s.audios[h]? = some a) (hm : s.currentMarker = some m) :
    trackEnded h s =
      match a.onended with
      | some index =>
        ⟨{ updateTrackUI index false (classRemove m (audioPause h s)) with
            currentAudio := none }, false⟩
      | none => ⟨audioPause h s, false⟩ := by
  unfold trackEnded
  simp only [ha]
  cases a.onended with
  | none => rfl
  | some index =>
    have : (audioPause h s).currentMarker = some m := hm
    simp only [endedListener, this]

theorem singlePlayback_linked_trackEnded (h : Nat) (s : ImageViewer)
    (hsp : SinglePlayback s) (hl : Linked s)
    (hh : IsPlaying s h ∨ s.currentAudio = some h) :
    SinglePlayback (trackEnded h s).state ∧ Linked (trackEnded h s).state ∧
      (trackEnded h s).threw = false := by
  have hc : s.currentAudio = some h := hh.elim (hsp h) id
  obtain ⟨hlt, tracks, ht, hidx⟩ := hl.2 h hc
  obtain ⟨m, hm⟩ := Option.ne_none_iff_exists'.mp (hl.1 (by simp [ht]))
  have ha : s.audios[h]? = some s.audios[h] := List.getElem?_eq_getElem hlt
  have hnp : ∀ k, IsPlaying (audioPause h s) k → False := by
    intro k hk
    obtain ⟨h1, h2⟩ := (isPlaying_audioPause h s k).mp hk
    have := hsp k h1
    rw [hc] at this
    exact h2 (Option.some.inj this).symm
  rw [trackEnded_eq h s ha hm]
  cases s.audios[h].onended with
  | none =>
    refine ⟨fun k hk => (hnp k hk).elim, ⟨fun x => hl.1 x, ?_⟩, rfl⟩
    intro h1 hh1
    have := hl.2 h1 hh1
    rwa [show (audioPause h s).audios.length = s.audios.length from modifyAudio_length _ _ _]
  | some index =>
    refine ⟨?_, ⟨?_, ?_⟩, rfl⟩
    · intro k hk
      refine (hnp k ((isPlaying_of_audios_eq ?_ k).mp hk)).elim
      exact updateTrackUI_audios _ _ _
    · intro _
      show (updateTrackUI index false (classRemove m (audioPause h s))).currentMarker ≠ none
      rw [updateTrackUI_currentMarker]
      show s.currentMarker ≠ none
      rw [hm]
      exact Option.some_ne_none m
    · intro h1 hh1
      exact Option.noConfusion hh1

theorem singlePlayback_linked_playbackAdvance (h : Nat) (dt : ℚ) (s : ImageViewer)
    (hsp : SinglePlayback s) (hl : Linked s) :
    SinglePlayback (playbackAdvance h dt s) ∧ Linked (playbackAdvance h dt s) := by
  refine ⟨?_, ⟨fun x => hl.1 x, ?_⟩⟩
  · intro k hk
    exact hsp k ((isPlaying_playbackAdvance h dt s k).mp hk)
  · intro h1 hh1
    have := hl.2 h1 hh1
    rwa [show (playbackAdvance h dt s).audios.length = s.audios.length from
      modifyAudio_length _ _ _]

theorem singlePlayback_linked_construct (page : Page) :
    SinglePlayback (construct page) ∧ Linked (construct page) := by
  refine ⟨?_, ⟨fun h => absurd rfl h, fun h hh => Option.noConfusion hh⟩⟩
  rintro k ⟨a, hk, -⟩
  simp [construct] at hk

theorem reachable_singlePlayback_linked {page : Page} {s : ImageViewer}
    (h : Reachable page s) : SinglePlayback s ∧ Linked s := by
  induction h with
  | init => exact singlePlayback_linked_construct page
  | click marker r _ ih =>
    obtain ⟨h1, h2, -⟩ := singlePlayback_linked_handleMarkerClick marker r _ ih.1 ih.2
    exact ⟨h1, h2⟩
  | play index _ ih =>
    obtain ⟨h1, h2, -⟩ := singlePlayback_linked_playTrack index _ ih.1 ih.2
    exact ⟨h1, h2⟩
  | stop _ ih => exact singlePlayback_linked_stopAudio _ ih.1
  | ended h _ hh ih =>
    obtain ⟨h1, h2, -⟩ := singlePlayback_linked_trackEnded h _ ih.1 ih.2 hh
    exact ⟨h1, h2⟩
  | advance h dt _ _ ih => exact singlePlayback_linked_playbackAdvance h dt _ ih.1 ih.2

/-! ## Track player: the track rows -/

theorem atMostOnePause_playTrack (index : Nat) (s : ImageViewer) (h : AtMostOnePause s) :
    AtMostOnePause (playTrack index s).state := by
  unfold playTrack
  dsimp only
  repeat' split
  all_goals first
    | exact h
    | exact atMostOnePause_updateTrackUI _ _ _

theorem atMostOnePause_stopAudio (s : ImageViewer) : AtMostOnePause (stopAudio s) := by
  unfold AtMostOnePause
  rw [(stopAudio_fields s).2.2.2.1]
  exact fun h => playIcon_ne_pauseIcon h.1

theorem atMostOnePause_handleMarkerClick (marker : Marker) (r : ℚ) (s : ImageViewer)
    (h : AtMostOnePause s) : AtMostOnePause (handleMarkerClick marker r s).state := by
  cases ha : marker.audio with
  | none =>
    rw [handleMarkerClick_noop marker r s (by simp [truthy, ha])]
    exact h
  | some audioSrc =>
    by_cases hne : audioSrc = ""
    · rw [handleMarkerClick_noop marker r s (by simp [truthy, ha, hne])]
      exact h
    · rw [handleMarkerClick_eq marker r s ha hne]
      split_ifs
      · refine atMostOnePause_playTrack _ _ ?_
        exact fun h => playIcon_ne_pauseIcon h.1
      · refine atMostOnePause_playTrack _ _ ?_
        exact fun h => playIcon_ne_pauseIcon h.1

theorem atMostOnePause_trackEnded (h : Nat) (s : ImageViewer) (hs : AtMostOnePause s) :
    AtMostOnePause (trackEnded h s).state := by
  unfold trackEnded endedListener
  dsimp only
  repeat' split
  all_goals first
    | exact hs
    | exact atMostOnePause_updateTrackUI _ _ _

theorem reachable_atMostOnePause {page : Page} {s : ImageViewer}
    (h0 : AtMostOnePause (construct page)) (h : Reachable page s) : AtMostOnePause s := by
  induction h with
  | init => exact h0
  | click marker r _ ih => exact atMostOnePause_handleMarkerClick marker r _ ih
  | play index _ ih => exact atMostOnePause_playTrack index _ ih
  | stop _ _ => exact atMostOnePause_stopAudio _
  | ended h _ _ ih => exact atMostOnePause_trackEnded h _ ih
  | advance h dt _ _ ih => exact ih

theorem handleMarkerClick_spec (marker : Marker) (r : ℚ) (s : ImageViewer)
    {audioSrc : String} (h : marker.audio = some audioSrc) (hne : audioSrc ≠ "")
    (track : Track)
    (hi : (if truthy marker.audio2 then
            [({ name := orElse marker.name (marker.title.getD marker.alt), src := audioSrc } :
                Track),
             { name := orElse marker.name2 "트랙 2", src := marker.audio2.getD "" }]
          else
            [{ name := orElse marker.name (marker.title.getD marker.alt), src := audioSrc }])[
          if truthy marker.audio2 then ⌊r * 2⌋₊ else 0]? = some track) :
    (handleMarkerClick marker r s).state.audios =
      (stopAudio s).audios ++
        [{ src := track.src, paused := false, currentTime := 0,
           onended := some (if truthy marker.audio2 then ⌊r * 2⌋₊ else 0) }] ∧
    (handleMarkerClick marker r s).state.currentAudio = some s.audios.length ∧
    (handleMarkerClick marker r s).state.currentTrackIndex =
      (if truthy marker.audio2 then ⌊r * 2⌋₊ else 0) ∧
    (handleMarkerClick marker r s).state.tracks =
      some (if truthy marker.audio2 then
            [({ name := orElse marker.name (marker.title.getD marker.alt), src := audioSrc } :
                Track),
             { name := orElse marker.name2 "트랙 2", src := marker.audio2.getD "" }]
          else
            [{ name := orElse marker.name (marker.title.getD marker.alt), src := audioSrc }]) ∧
    (handleMarkerClick marker r s).state.currentMarker = some marker ∧
    (handleMarkerClick marker r s).threw = false := by
  rw [handleMarkerClick_eq marker r s h hne]
  by_cases h2 : truthy marker.audio2 = true
  · simp only [h2, if_true] at hi ⊢
    obtain ⟨e1, e2, e3, e4, e5, e6⟩ := playTrack_fresh ⌊r * 2⌋₊
      (showDualTracks (orElse marker.name (marker.title.getD marker.alt))
        (orElse marker.name2 "트랙 2")
        { stopAudio s with
          currentMarker := some marker,
          tracks := some
            [{ name := orElse marker.name (marker.title.getD marker.alt), src := audioSrc },
             { name := orElse marker.name2 "트랙 2", src := marker.audio2.getD "" }] })
      rfl hi rfl
    refine ⟨e1, ?_, e3, e4, e5, e6⟩
    rw [e2, ← stopAudio_length s]
    rfl
  · simp only [h2, if_false, Bool.false_eq_true] at hi ⊢
    obtain ⟨e1, e2, e3, e4, e5, e6⟩ := playTrack_fresh 0
      (showSingleTrack (orElse marker.name (marker.title.getD marker.alt))
        { stopAudio s with
          currentMarker := some marker,
          tracks := some
            [{ name := orElse marker.name (marker.title.getD marker.alt), src := audioSrc }] })
      rfl hi rfl
    refine ⟨e1, ?_, e3, e4, e5, e6⟩
    rw [e2, ← stopAudio_length s]
    rfl

theorem handleMarkerClick_length (marker : Marker) (r : ℚ) (s : ImageViewer)
    (hlen : s.audios.length < (handleMarkerClick marker r s).state.audios.length) :
    ∃ b, (handleMarkerClick marker r s).state.audios = (stopAudio s).audios ++ [b] := by
  cases ha : marker.audio with
  | none =>
    rw [handleMarkerClick_noop marker r s (by simp [truthy, ha])] at hlen
    exact absurd hlen (lt_irrefl _)
  | some audioSrc =>
    by_cases hne : audioSrc = ""
    · rw [handleMarkerClick_noop marker r s (by simp [truthy, ha, hne])] at hlen
      exact absurd hlen (lt_irrefl _)
    · cases hi : (if truthy marker.audio2 then
            [({ name := orElse marker.name (marker.title.getD marker.alt), src := audioSrc } :
                Track),
             { name := orElse marker.name2 "트랙 2", src := marker.audio2.getD "" }]
          else
            [{ name := orElse marker.name (marker.title.getD marker.alt), src := audioSrc }])[
          if truthy marker.audio2 then ⌊r * 2⌋₊ else 0]? with
      | some track => exact ⟨_, (handleMarkerClick_spec marker r s ha hne track hi).1⟩
      | none =>
        exfalso
        rw [handleMarkerClick_eq marker r s ha hne] at hlen
        by_cases h2 : truthy marker.audio2 = true
        · simp only [h2, if_true] at hi hlen
          rw [playTrack_noop _ _ (Or.inr ⟨_, rfl, List.getElem?_eq_none_iff.mp hi⟩)] at hlen
          have := stopAudio_length s
          exact absurd hlen (by
            show ¬ s.audios.length < (stopAudio s).audios.length
            omega)
        · simp only [h2, if_false, Bool.false_eq_true] at hi hlen
          rw [playTrack_noop _ _ (Or.inr ⟨_, rfl, List.getElem?_eq_none_iff.mp hi⟩)] at hlen
          have := stopAudio_length s
          exact absurd hlen (by
            show ¬ s.audios.length < (stopAudio s).audios.length
            omega)

/-! ## Single playback while notifications are timely -/

/-- Single playback without late notifications.  In every state reachable from the
constructed viewer by `handleMarkerClick`, `playTrack`, `stopAudio`, playback progress
and end-of-track notifications delivered while the ended handle is still playing or
active, every handle in the playing state is the one held in `currentAudio`, so at most
one handle is playing; and from any state, whenever `playTrack` or `handleMarkerClick`
creates a new handle, the previously active handle ends paused at position 0. -/
theorem single_playback_of_timely_notifications :
    (∀ (page : Page) (s : ImageViewer), Reachable page s →
      (∀ k, IsPlaying s k → s.currentAudio = some k) ∧
      (∀ k1 k2, IsPlaying s k1 → IsPlaying s k2 → k1 = k2)) ∧
    (∀ (s : ImageViewer) (index h : Nat) (a : Audio),
      s.currentAudio = some h → s.audios[h]? = some a →
      s.audios.length < (playTrack index s).state.audios.length →
      (playTrack index s).state.audios[h]? =
        some { a with paused := true, currentTime := 0 }) ∧
    (∀ (s : ImageViewer) (marker : Marker) (r : ℚ) (h : Nat) (a : Audio),
      s.currentAudio = some h → s.audios[h]? = some a →
      s.audios.length < (handleMarkerClick marker r s).state.audios.length →
      (handleMarkerClick marker r s).state.audios[h]? =
        some { a with paused := true, currentTime := 0 }) := by
  refine ⟨?_, ?_, ?_⟩
  · intro page s hr
    have hsp := (reachable_singlePlayback_linked hr).1
    refine ⟨hsp, fun k1 k2 h1 h2 => ?_⟩
    have e1 := hsp k1 h1
    have e2 := hsp k2 h2
    rw [e1] at e2
    exact Option.some.inj e2
  · intro s index h a hc ha hlen
    have hlt : h < s.audios.length := (List.getElem?_eq_some.mp ha).1
    cases ht : s.tracks with
    | none =>
      rw [playTrack_noop index s (Or.inl ht)] at hlen
      exact absurd hlen (lt_irrefl _)
    | some tracks =>
      cases hi : tracks[index]? with
      | none =>
        rw [playTrack_noop index s
          (Or.inr ⟨tracks, ht, List.getElem?_eq_none_iff.mp hi⟩)] at hlen
        exact absurd hlen (lt_irrefl _)
      | some track =>
        by_cases hx : s.currentTrackIndex = index
        · rw [(playTrack_toggle index s ht hi hc ha hx).1, List.length_set] at hlen
          exact absurd hlen (lt_irrefl _)
        · rw [(playTrack_switch index s ht hi hc ha hx).1,
            List.getElem?_append_left (by simpa using hlt), List.getElem?_set_self hlt]
  · intro s marker r h a hc ha hlen
    have hlt : h < s.audios.length := (List.getElem?_eq_some.mp ha).1
    obtain ⟨b, hb⟩ := handleMarkerClick_length marker r s hlen
    rw [hb, List.getElem?_append_left (by rw [stopAudio_length]; exact hlt), stopAudio_audios]
    simp only [hc, ha]
    exact List.getElem?_set_self hlt

/-! ## C5: toggling and switching tracks -/

/-- C5. In a state with an active audio handle `h` (object `a`) and an existing
`tracks[index]`: if `index` is the active track index, `playTrack(index)` keeps the
handle and only flips its `paused` flag (position, source and every other handle are
unchanged, no handle is created); otherwise it pauses the old handle and sets its
position to 0, and a new handle for `tracks[index].src`, playing from position 0,
becomes the active one with `currentTrackIndex = index`. -/
theorem playTrack_toggle_or_switch (index : Nat) (s : ImageViewer) (tracks : List Track)
    (track : Track) (h : Nat) (a : Audio)
    (ht : s.tracks = some tracks) (hi : tracks[index]? = some track)
    (hc : s.currentAudio = some h) (ha : s.audios[h]? = some a) :
    (s.currentTrackIndex = index →
      (playTrack index s).state.currentAudio = some h ∧
      (playTrack index s).state.audios = s.audios.set h { a with paused := !a.paused } ∧
      (playTrack index s).state.currentTrackIndex = index) ∧
    (s.currentTrackIndex ≠ index →
      (playTrack index s).state.audios =
        s.audios.set h { a with paused := true, currentTime := 0 } ++
          [{ src := track.src, paused := false, currentTime := 0,
             onended := s.currentMarker.map (fun _ => index) }] ∧
      (playTrack index s).state.currentAudio = some s.audios.length ∧
      (playTrack index s).state.currentTrackIndex = index) := by
  constructor
  · intro hx
    obtain ⟨e1, e2, e3, -⟩ := playTrack_toggle index s ht hi hc ha hx
    exact ⟨e2, e1, e3⟩
  · intro hx
    obtain ⟨e1, e2, e3, -⟩ := playTrack_switch index s ht hi hc ha hx
    exact ⟨e1, e2, e3⟩

/-- C5, instance: pressing the button of track 2 while track 1 of marker A plays at
position 3 rewinds and pauses track 1 and starts a new handle for `a2.mp3`. -/
theorem playTrack_toggle_or_switch_witness :
    playingState.currentTrackIndex ≠ 1 ∧
    (playTrack 1 playingState).state.audios =
      playingState.audios.set 0
          { src := "a.mp3", paused := true, currentTime := 0, onended := some 0 } ++
        [{ src := "a2.mp3", paused := false, currentTime := 0,
           onended := playingState.currentMarker.map (fun _ => 1) }] ∧
    (playTrack 1 playingState).state.currentAudio = some playingState.audios.length ∧
    (playTrack 1 playingState).state.currentTrackIndex = 1 :=
  ⟨by decide,
   (playTrack_toggle_or_switch 1 playingState
     [{ name := "A", src := "a.mp3" }, { name := "트랙 2", src := "a2.mp3" }]
     { name := "트랙 2", src := "a2.mp3" } 0
     { src := "a.mp3", paused := false, currentTime := 3, onended := some 0 }
     rfl rfl rfl rfl).2 (by decide)⟩

/-! ## Marker activation: the handle it starts -/

theorem isPlaying_handleMarkerClick (marker : Marker) (r : ℚ) (s : ImageViewer) (b : Audio)
    (hb : (handleMarkerClick marker r s).state.audios = (stopAudio s).audios ++ [b])
    (hp : b.paused = false) (k : Nat) :
    IsPlaying (handleMarkerClick marker r s).state k ↔
      k = s.audios.length ∨ (IsPlaying s k ∧ s.currentAudio ≠ some k) := by
  rw [← isPlaying_stopAudio]
  unfold IsPlaying
  rw [hb]
  rcases Nat.lt_trichotomy k s.audios.length with hk | hk | hk
  · rw [List.getElem?_append_left (by rw [stopAudio_length]; exact hk)]
    simp [hk.ne]
  · subst hk
    rw [← stopAudio_length s, List.getElem?_concat_length]
    simp [hp]
  · rw [List.getElem?_eq_none (by simp [stopAudio_length]; omega),
      List.getElem?_eq_none (by rw [stopAudio_length]; omega)]
    simp [hk.ne']

theorem floor_two_mul_random (r : ℚ) (h0 : 0 ≤ r) (h1 : r < 1) :
    ⌊r * 2⌋₊ = 0 ∨ ⌊r * 2⌋₊ = 1 := by
  have h : ⌊r * 2⌋₊ < 2 := (Nat.floor_lt (by linarith)).mpr (by push_cast; linarith)
  omega

/-- What marker activation does from any prior state.  For every marker with a
non-empty `audioSrc`, `handleMarkerClick` does not throw and leaves a fresh handle
playing from position 0 as the active one.  When `audioSrc2` is absent or empty the
track list is the single track of `audioSrc` and track 0 is the active playing track
whatever the random source returns; when `audioSrc2` is present and non-empty the track
list is `[audioSrc, audioSrc2]` and the active playing track has index `floor(2r)`,
which is 0 or 1 for a draw `r` in `[0, 1)`.  The handles playing afterwards are the new
one and those that were playing before without being the active one (`stopAudio` only
stops the handle in `currentAudio`). -/
theorem handleMarkerClick_starts_track (marker : Marker) (r : ℚ) (s : ImageViewer)
    (audioSrc : String) (ha : marker.audio = some audioSrc) (hne : audioSrc ≠ "") :
    (truthy marker.audio2 = false →
      (handleMarkerClick marker r s).threw = false ∧
      (handleMarkerClick marker r s).state.tracks =
        some [{ name := orElse marker.name (marker.title.getD marker.alt), src := audioSrc }] ∧
      (handleMarkerClick marker r s).state.currentTrackIndex = 0 ∧
      (handleMarkerClick marker r s).state.currentAudio = some s.audios.length ∧
      (handleMarkerClick marker r s).state.audios[s.audios.length]? =
        some { src := audioSrc, paused := false, currentTime := 0, onended := some 0 } ∧
      (∀ k, IsPlaying (handleMarkerClick marker r s).state k ↔
        k = s.audios.length ∨ (IsPlaying s k ∧ s.currentAudio ≠ some k)) ∧
      (SinglePlayback s →
        ∀ k, IsPlaying (handleMarkerClick marker r s).state k ↔ k = s.audios.length)) ∧
    (∀ audioSrc2, marker.audio2 = some audioSrc2 → audioSrc2 ≠ "" → 0 ≤ r → r < 1 →
      (handleMarkerClick marker r s).threw = false ∧
      (handleMarkerClick marker r s).state.tracks =
        some [{ name := orElse marker.name (marker.title.getD marker.alt), src := audioSrc },
              { name := orElse marker.name2 "트랙 2", src := audioSrc2 }] ∧
      (handleMarkerClick marker r s).state.currentTrackIndex = ⌊r * 2⌋₊ ∧
      (⌊r * 2⌋₊ = 0 ∨ ⌊r * 2⌋₊ = 1) ∧
      (handleMarkerClick marker r s).state.currentAudio = some s.audios.length ∧
      (handleMarkerClick marker r s).state.audios[s.audios.length]? =
        some { src := if ⌊r * 2⌋₊ = 0 then audioSrc else audioSrc2,
               paused := false, currentTime := 0, onended := some ⌊r * 2⌋₊ } ∧
      (∀ k, IsPlaying (handleMarkerClick marker r s).state k ↔
        k = s.audios.length ∨ (IsPlaying s k ∧ s.currentAudio ≠ some k)) ∧
      (SinglePlayback s →
        ∀ k, IsPlaying (handleMarkerClick marker r s).state k ↔ k = s.audios.length)) := by
  have key : ∀ b, (handleMarkerClick marker r s).state.audios = (stopAudio s).audios ++ [b] →
      b.paused = false →
      (handleMarkerClick marker r s).state.audios[s.audios.length]? = some b ∧
      (∀ k, IsPlaying (handleMarkerClick marker r s).state k ↔
        k = s.audios.length ∨ (IsPlaying s k ∧ s.currentAudio ≠ some k)) ∧
      (SinglePlayback s →
        ∀ k, IsPlaying (handleMarkerClick marker r s).state k ↔ k = s.audios.length) := by
    intro b hb hp
    have hiff := isPlaying_handleMarkerClick marker r s b hb hp
    refine ⟨?_, hiff, fun hsp k => ?_⟩
    · rw [hb, ← stopAudio_length s, List.getElem?_concat_length]
    · rw [hiff k]
      constructor
      · rintro (h | ⟨h1, h2⟩)
        · exact h
        · exact absurd (hsp k h1) h2
      · exact Or.inl
  constructor
  · intro h2
    obtain ⟨e1, e2, e3, e4, -, e6⟩ := handleMarkerClick_spec marker r s ha hne
      { name := orElse marker.name (marker.title.getD marker.alt), src := audioSrc }
      (by simp [h2])
    simp only [h2, Bool.false_eq_true, if_false] at e1 e3 e4
    obtain ⟨k1, k2, k3⟩ := key _ e1 rfl
    exact ⟨e6, e4, e3, e2, k1, k2, k3⟩
  · intro audioSrc2 ha2 hne2 h0 h1
    have h3 : truthy (some audioSrc2) = true := by simp [truthy, hne2]
    have h2 : truthy marker.audio2 = true := by rw [ha2]; exact h3
    have hfl := floor_two_mul_random r h0 h1
    obtain ⟨e1, e2, e3, e4, -, e6⟩ := handleMarkerClick_spec marker r s ha hne
      { name := if ⌊r * 2⌋₊ = 0
          then orElse marker.name (marker.title.getD marker.alt)
          else orElse marker.name2 "트랙 2",
        src := if ⌊r * 2⌋₊ = 0 then audioSrc else audioSrc2 }
      (by rcases hfl with h | h <;> simp [h3, h, ha2])
    simp only [h3, if_true, ha2, Option.getD_some] at e1 e3 e4
    obtain ⟨k1, k2, k3⟩ := key _ e1 rfl
    exact ⟨e6, e4, e3, hfl, e2, k1, k2, k3⟩

/-! ## C9: at most one row shows the pause icon -/

/-- C9. `updateTrackUI(index, isPlaying)` ends with the pause icon on row 1 exactly when
`index = 0` and `isPlaying`, on row 2 exactly when `index ≠ 0` and `isPlaying`, and the
play icon otherwise; so at most one row shows the pause icon after it, and, provided the
page markup does not start with both rows showing it, in every state reachable through
`handleMarkerClick`, `playTrack`, `stopAudio`, playback progress and end-of-track
notifications. -/
theorem one_row_playing (index : Nat) (isPlaying : Bool) (s : ImageViewer) (page : Page) :
    (updateTrackUI index isPlaying s).track1Row.iconSrc =
        (if index = 0 ∧ isPlaying = true then pauseIcon else playIcon) ∧
    (updateTrackUI index isPlaying s).track2Row.iconSrc =
        (if index ≠ 0 ∧ isPlaying = true then pauseIcon else playIcon) ∧
    ¬ ((updateTrackUI index isPlaying s).track1Row.iconSrc = pauseIcon ∧
       (updateTrackUI index isPlaying s).track2Row.iconSrc = pauseIcon) ∧
    (¬ (page.track1Row.iconSrc = pauseIcon ∧ page.track2Row.iconSrc = pauseIcon) →
      Reachable page s →
      ¬ (s.track1Row.iconSrc = pauseIcon ∧ s.track2Row.iconSrc = pauseIcon)) :=
  ⟨(updateTrackUI_icons index isPlaying s).1, (updateTrackUI_icons index isPlaying s).2,
   atMostOnePause_updateTrackUI index isPlaying s,
   fun h0 hr => reachable_atMostOnePause h0 hr⟩

/-- C9, instance: after activating marker A and pressing the button of track 1, at most
one row shows the pause icon. -/
theorem one_row_playing_witness :
    ¬ (samplePage.track1Row.iconSrc = pauseIcon ∧ samplePage.track2Row.iconSrc = pauseIcon) ∧
    Reachable samplePage
      (playTrack 0 (handleMarkerClick markerA (1 / 2) (construct samplePage)).state).state ∧
    ¬ ((playTrack 0 (handleMarkerClick markerA (1 / 2)
          (construct samplePage)).state).state.track1Row.iconSrc = pauseIcon ∧
       (playTrack 0 (handleMarkerClick markerA (1 / 2)
          (construct samplePage)).state).state.track2Row.iconSrc = pauseIcon) :=
  ⟨by decide,
   Reachable.play 0 (Reachable.click markerA (1 / 2) Reachable.init),
   (one_row_playing 0 true _ samplePage).2.2.2 (by decide)
     (Reachable.play 0 (Reachable.click markerA (1 / 2) Reachable.init))⟩

/-! ## C10: the marker is never dereferenced while null -/

/-- C10. In every state reachable from the constructed viewer by `handleMarkerClick`,
`playTrack(index)` for any index, `stopAudio`, playback progress and end-of-track
notifications of a playing or active handle: a non-null track list implies a non-null
`currentMarker`, and a non-null `currentAudio` is an existing handle and implies a
non-null track list in which `currentTrackIndex` is a valid index; hence `playTrack`,
`handleMarkerClick` and the end-of-track listener never throw on a null marker there.
From any state, `playTrack` with no track list or an index outside it changes
nothing. -/
theorem marker_never_null :
    (∀ (page : Page) (s : ImageViewer), Reachable page s →
      (s.tracks ≠ none → s.currentMarker ≠ none) ∧
      (∀ h, s.currentAudio = some h →
        h < s.audios.length ∧
        ∃ tracks, s.tracks = some tracks ∧ s.currentTrackIndex < tracks.length) ∧
      (∀ index, (playTrack index s).threw = false) ∧
      (∀ marker r, (handleMarkerClick marker r s).threw = false) ∧
      (∀ h, IsPlaying s h ∨ s.currentAudio = some h → (trackEnded h s).threw = false)) ∧
    (∀ (s : ImageViewer) (index : Nat),
      (s.tracks = none ∨ ∃ tracks, s.tracks = some tracks ∧ tracks.length ≤ index) →
      playTrack index s = ⟨s, false⟩) := by
  refine ⟨fun page s hr => ?_, fun s index h => playTrack_noop index s h⟩
  obtain ⟨hsp, hl⟩ := reachable_singlePlayback_linked hr
  exact ⟨hl.1, hl.2,
    fun index => (singlePlayback_linked_playTrack index s hsp hl).2.2,
    fun marker r => (singlePlayback_linked_handleMarkerClick marker r s hsp hl).2.2,
    fun h hh => (singlePlayback_linked_trackEnded h s hsp hl hh).2.2⟩

/-- C10, instance: after marker A is activated and its track has ended, pressing the
button of track 2 does not throw. -/
theorem marker_never_null_witness :
    Reachable samplePage
      (trackEnded 0 (handleMarkerClick markerA (1 / 2) (construct samplePage)).state).state ∧
    (playTrack 1
      (trackEnded 0 (handleMarkerClick markerA (1 / 2)
        (construct samplePage)).state).state).threw = false := by
  have hr : Reachable samplePage
      (handleMarkerClick markerA (1 / 2) (construct samplePage)).state :=
    Reachable.click markerA (1 / 2) Reachable.init
  have hc : (handleMarkerClick markerA (1 / 2) (construct samplePage)).state.currentAudio =
      some 0 :=
    (handleMarkerClick_spec markerA (1 / 2) (construct samplePage) rfl (by decide)
      { name := "트랙 2", src := "a2.mp3" }
      (show _ = some ({ name := "트랙 2", src := "a2.mp3" } : Track) by
        norm_num [truthy, markerA, orElse, show ("a2.mp3" : String) ≠ "" by decide])).2.1
  exact ⟨Reachable.ended 0 hr (Or.inr hc),
    (marker_never_null.1 samplePage _ (Reachable.ended 0 hr (Or.inr hc))).2.2.1 1⟩

/-! ## C4 and C6: a late end-of-track notification

The `ended` listener registered by `playTrack` (lines 298-302 of the source) clears
`currentAudio` without comparing the handle that ended with the active one.  Delivered
for a handle the player has switched away from, it drops the reference to the handle
that is playing; `playTrack` and `stopAudio`, which stop the existing audio through
`currentAudio` only, then start a second handle next to it. -/

theorem afterClick_fields :
    afterClick.audios =
      [{ src := "a2.mp3", paused := false, currentTime := 0, onended := some 1 }] ∧
    afterClick.currentAudio = some 0 ∧
    afterClick.currentTrackIndex = 1 ∧
    afterClick.tracks =
      some [{ name := "A", src := "a.mp3" }, { name := "트랙 2", src := "a2.mp3" }] ∧
    afterClick.currentMarker = some markerA := by
  obtain ⟨e1, e2, e3, e4, e5, -⟩ :=
    handleMarkerClick_spec markerA (1 / 2) (construct samplePage) rfl (by decide)
      { name := "트랙 2", src := "a2.mp3" }
      (show _ = some ({ name := "트랙 2", src := "a2.mp3" } : Track) by
        norm_num [truthy, markerA, orElse, show ("a2.mp3" : String) ≠ "" by decide])
  have hfl : ⌊(1 / 2 : ℚ) * 2⌋₊ = 1 := by norm_num
  have h2 : truthy markerA.audio2 = true := by decide
  simp only [h2, if_true, hfl] at e1 e3 e4
  have hs : (stopAudio (construct samplePage)).audios = [] := by
    rw [stopAudio_audios]; rfl
  rw [hs, List.nil_append] at e1
  exact ⟨e1, e2, e3, e4, e5⟩

theorem afterSwitch_fields :
    afterSwitch.audios =
      [{ src := "a2.mp3", paused := true, currentTime := 0, onended := some 1 },
       { src := "a.mp3", paused := false, currentTime := 0, onended := some 0 }] ∧
    afterSwitch.currentAudio = some 1 ∧
    afterSwitch.currentTrackIndex = 0 ∧
    afterSwitch.tracks =
      some [{ name := "A", src := "a.mp3" }, { name := "트랙 2", src := "a2.mp3" }] ∧
    afterSwitch.currentMarker = some markerA := by
  obtain ⟨e1, e2, e3, e4, e5⟩ := afterClick_fields
  obtain ⟨f1, f2, f3, f4, f5, -⟩ :=
    playTrack_switch 0 afterClick e4
      (show _ = some ({ name := "A", src := "a.mp3" } : Track) from rfl) e2
      (show afterClick.audios[0]? = some
          { src := "a2.mp3", paused := false, currentTime := 0, onended := some 1 } by
        rw [e1]; rfl)
      (by rw [e3]; decide)
  rw [e1, e5] at f1
  rw [e1] at f2
  rw [e4] at f4
  rw [e5] at f5
  exact ⟨f1, f2, f3, f4, f5⟩

theorem afterLateEnded_fields :
    afterLateEnded.audios =
      [{ src := "a2.mp3", paused := true, currentTime := 0, onended := some 1 },
       { src := "a.mp3", paused := false, currentTime := 0, onended := some 0 }] ∧
    afterLateEnded.currentAudio = none ∧
    afterLateEnded.tracks =
      some [{ name := "A", src := "a.mp3" }, { name := "트랙 2", src := "a2.mp3" }] ∧
    afterLateEnded.currentMarker = some markerA := by
  obtain ⟨e1, -, -, e4, e5⟩ := afterSwitch_fields
  have g0 : afterSwitch.audios[0]? =
      some { src := "a2.mp3", paused := true, currentTime := 0, onended := some 1 } := by
    rw [e1]; rfl
  have hp : (audioPause 0 afterSwitch).audios = afterSwitch.audios := by
    simp only [audioPause, modifyAudio, g0]
    rw [e1]; rfl
  unfold afterLateEnded
  rw [trackEnded_eq 0 afterSwitch g0 e5]
  refine ⟨?_, rfl, ?_, ?_⟩
  · show (updateTrackUI 1 false (classRemove markerA (audioPause 0 afterSwitch))).audios = _
    rw [updateTrackUI_audios]
    show (audioPause 0 afterSwitch).audios = _
    rw [hp, e1]
  · show (updateTrackUI 1 false (classRemove markerA (audioPause 0 afterSwitch))).tracks = _
    rw [updateTrackUI_tracks]
    exact e4
  · show (updateTrackUI 1 false
      (classRemove markerA (audioPause 0 afterSwitch))).currentMarker = _
    rw [updateTrackUI_currentMarker]
    exact e5

theorem reachableLate_afterLateEnded : ReachableLate samplePage afterLateEnded :=
  ReachableLate.ended 0 (ReachableLate.play 0 (ReachableLate.click markerA (1 / 2)
    ReachableLate.init))

/-- C4. The single-playback invariant fails on the code once an end-of-track
notification is late: activate marker A (draw 1/2, `a2.mp3` starts on handle 0), press
the button of track 1 (handle 0 is paused and rewound, `a.mp3` plays on handle 1),
deliver the end-of-track notification of handle 0 (the listener sets `currentAudio` to
null although handle 1 is playing), press the button of track 2.  `playTrack` finds no
active handle to stop and starts handle 2: handles 1 and 2 are both playing, and
handle 1 is playing without being held in `currentAudio`. -/
theorem single_playback_fails_after_late_notification :
    ReachableLate samplePage (playTrack 1 afterLateEnded).state ∧
    (IsPlaying afterLateEnded 1 ∧ afterLateEnded.currentAudio = none) ∧
    (playTrack 1 afterLateEnded).state.audios =
      [{ src := "a2.mp3", paused := true, currentTime := 0, onended := some 1 },
       { src := "a.mp3", paused := false, currentTime := 0, onended := some 0 },
       { src := "a2.mp3", paused := false, currentTime := 0, onended := some 1 }] ∧
    (playTrack 1 afterLateEnded).state.currentAudio = some 2 ∧
    IsPlaying (playTrack 1 afterLateEnded).state 1 ∧
    IsPlaying (playTrack 1 afterLateEnded).state 2 ∧
    ¬ SinglePlayback (playTrack 1 afterLateEnded).state := by
  obtain ⟨e1, e2, e3, e4⟩ := afterLateEnded_fields
  obtain ⟨f1, f2, -⟩ := playTrack_fresh 1 afterLateEnded e3
    (show _ = some ({ name := "트랙 2", src := "a2.mp3" } : Track) from rfl) e2
  rw [e1, e4] at f1
  rw [e1] at f2
  have p1 : IsPlaying (playTrack 1 afterLateEnded).state 1 :=
    ⟨_, by rw [f1]; rfl, rfl⟩
  have p2 : IsPlaying (playTrack 1 afterLateEnded).state 2 :=
    ⟨_, by rw [f1]; rfl, rfl⟩
  refine ⟨ReachableLate.play 1 reachableLate_afterLateEnded,
    ⟨⟨_, by rw [e1]; rfl, rfl⟩, e2⟩, f1, f2, p1, p2, fun hsp => ?_⟩
  have := hsp 1 p1
  rw [f2] at this
  exact absurd (Option.some.inj this) (by decide)

/-- C6. From the state a late end-of-track notification leaves (`a.mp3`, the first
track of marker A, playing on handle 1 while `currentAudio` is null), activating marker
A with the draw 1/2 starts its second track `a2.mp3` on handle 2: `stopAudio` has no
active handle to stop, so two tracks of the marker are playing afterwards. -/
theorem handleMarkerClick_leaves_two_tracks_playing :
    ReachableLate samplePage afterLateEnded ∧
    markerA.audio = some "a.mp3" ∧ markerA.audio2 = some "a2.mp3" ∧
    (handleMarkerClick markerA (1 / 2) afterLateEnded).state.audios =
      [{ src := "a2.mp3", paused := true, currentTime := 0, onended := some 1 },
       { src := "a.mp3", paused := false, currentTime := 0, onended := some 0 },
       { src := "a2.mp3", paused := false, currentTime := 0, onended := some 1 }] ∧
    (handleMarkerClick markerA (1 / 2) afterLateEnded).state.currentAudio = some 2 ∧
    IsPlaying (handleMarkerClick markerA (1 / 2) afterLateEnded).state 1 ∧
    IsPlaying (handleMarkerClick markerA (1 / 2) afterLateEnded).state 2 := by
  obtain ⟨e1, e2, -, -⟩ := afterLateEnded_fields
  obtain ⟨f1, f2, -⟩ :=
    handleMarkerClick_spec markerA (1 / 2) afterLateEnded rfl (by decide)
      { name := "트랙 2", src := "a2.mp3" }
      (show _ = some ({ name := "트랙 2", src := "a2.mp3" } : Track) by
        norm_num [truthy, markerA, orElse, show ("a2.mp3" : String) ≠ "" by decide])
  have hfl : ⌊(1 / 2 : ℚ) * 2⌋₊ = 1 := by norm_num
  have h2 : truthy markerA.audio2 = true := by decide
  simp only [h2, if_true, hfl] at f1
  have hs : (stopAudio afterLateEnded).audios = afterLateEnded.audios := by
    rw [stopAudio_audios, e2]
  rw [hs, e1] at f1
  rw [e1] at f2
  exact ⟨reachableLate_afterLateEnded, rfl, rfl, f1, f2,
    ⟨_, by rw [f1]; rfl, rfl⟩, ⟨_, by rw [f1]; rfl, rfl⟩⟩

end ImageViewer
